import Mathlib

set_option linter.unusedVariables false

/-!
Verification development for the pixel-collab backend (Go, Taubyte SDK).

The repository contains several variants of the same service.  Each variant is
embedded in its own namespace:

* `P0` — the per-cell ("CRDT key") variant: batch pixel writer `onPixelUpdate`
  with in-memory deduplication maps, projection reader `getCanvas`,
  chat writer `onChatMessages` and chat reader `getMessages`.
* `P2` — the variant with `isValidColor` / `sanitizeMessage` helpers.
* `P3` — the variant whose `getUsersFromDB` flags users online/offline.
* `P5` — the variant with `loadCanvas` / `createEmptyCanvas`.
* `B1` — the whole-canvas-per-room variant (`getCanvas` keyed by room).
* `B3` — the variant with per-user keys (`getUsersFromDB` filtering by
  `UserTimeout`) and the strict `isValidColor` / `sanitizeMessage`.

The Taubyte key-value database is modelled as an association list from keys to
already-deserialized records: `json.Marshal`/`json.Unmarshal` of a record type
round-trips, so a stored blob is identified with the record it encodes.
`db.Put` overwrites in place when the key exists and appends otherwise;
`db.List prefix` returns the keys in store order; `db.Get` on a listed key
returns its value.  Go strings are modelled as `List Char`, Go `int`/`int64`
as `Int` (all arithmetic in the claims is far from the 64-bit boundary).
-/

namespace PixelCollab

/-- Lookup in the association-list model of a key-value namespace. -/
def storeLookup {κ α : Type} [DecidableEq κ] : List (κ × α) → κ → Option α
  | [], _ => none
  | kv :: rest, k => if kv.1 = k then some kv.2 else storeLookup rest k

/-- Model of `db.Put`: overwrite the existing entry in place, else append. -/
def storePut {κ α : Type} [DecidableEq κ] (store : List (κ × α)) (k : κ) (v : α) :
    List (κ × α) :=
  if (storeLookup store k).isSome then
    store.map (fun kv => if kv.1 = k then (k, v) else kv)
  else store ++ [(k, v)]


/-- Decimal digits of a natural number, most significant first
(the model of Go `%d` on a non-negative value). -/
def natRepr (n : Nat) : List Char := Nat.toDigits 10 n

/-- Model of Go `%d` on an `int` (sign then digits). -/
def intRepr (i : Int) : List Char :=
  if i < 0 then '-' :: natRepr i.natAbs else natRepr i.toNat

/-- Decimal value of a digit string (used by the `fmt.Sscanf` model). -/
def digitsToNat (ds : List Char) : Nat :=
  ds.foldl (fun n c => 10 * n + (c.toNat - 48)) 0

/-- Model of one `%d` conversion of `fmt.Sscanf`: an optional sign followed by
at least one decimal digit; returns the value and the unread remainder.
(The whitespace-skipping of `fmt` is not modelled; no key in any proof below
contains whitespace.) -/
def parseNat (cs : List Char) : Option (Nat × List Char) :=
  let ds := cs.takeWhile Char.isDigit
  if ds = [] then none else some (digitsToNat ds, cs.dropWhile Char.isDigit)

def parseInt (cs : List Char) : Option (Int × List Char) :=
  match cs with
  | '-' :: rest => (parseNat rest).map (fun p => (-(p.1 : Int), p.2))
  | '+' :: rest => (parseNat rest).map (fun p => ((p.1 : Int), p.2))
  | _ => (parseNat cs).map (fun p => ((p.1 : Int), p.2))

/-- Model of `fmt.Sscanf(s, "%d:%d", &x, &y)` succeeding with `n == 2`:
an integer, a literal colon, an integer; trailing input is ignored. -/
def parseCoord (cs : List Char) : Option (Int × Int) :=
  match parseInt cs with
  | some (x, rest) =>
      match rest with
      | ':' :: rest2 => (parseInt rest2).map (fun p => (x, p.1))
      | _ => none
  | none => none

/-- Model of `fmt.Sscanf(s, "%d", &timestamp)` succeeding with `n == 1`. -/
def parseTs (cs : List Char) : Option Int :=
  (parseInt cs).map Prod.fst

namespace P0

/-- part_000 `Pixel`. -/
structure Pixel where
  x : Int
  y : Int
  color : String
  userId : String
  username : String
deriving DecidableEq

/-- part_000 `ChatMessage`. -/
structure ChatMessage where
  id : String
  userId : String
  username : String
  message : String
  timestamp : Int
deriving DecidableEq

def CanvasWidth : Int := 90
def CanvasHeight : Int := 90

def MAX_PROCESSED_BATCHES : Nat := 1000
def MAX_PROCESSED_MESSAGES : Nat := 1000

/-- part_000 `isBatchProcessed`.  The Go map `processedBatchIds` is modelled
as an association list with the most recently inserted entry first; Go map
iteration order is unspecified, and the cleanup loop (`delete` the first 200
keys encountered, despite its "remove oldest" comment) is modelled as
dropping the first 200 entries of that list.  Returns the Go result together
with the updated map. -/
def isBatchProcessed (batchId : String) (timestamp : Int)
    (processedBatchIds : List (String × Int)) : Bool × List (String × Int) :=
  if batchId = "" then (false, processedBatchIds)
  else if (storeLookup processedBatchIds batchId).isSome then
    (true, processedBatchIds)
  else
    let m := (batchId, timestamp) :: processedBatchIds
    if m.length > MAX_PROCESSED_BATCHES then (false, m.drop 200) else (false, m)

/-- part_000 `isMessageProcessed` (same shape as `isBatchProcessed`, on the
`processedMessageIds` map). -/
def isMessageProcessed (messageId : String) (timestamp : Int)
    (processedMessageIds : List (String × Int)) : Bool × List (String × Int) :=
  if messageId = "" then (false, processedMessageIds)
  else if (storeLookup processedMessageIds messageId).isSome then
    (true, processedMessageIds)
  else
    let m := (messageId, timestamp) :: processedMessageIds
    if m.length > MAX_PROCESSED_MESSAGES then (false, m.drop 200) else (false, m)

/-- The key `fmt.Sprintf("/%s/%d:%d", room, x, y)` of part_000. -/
def pixelKey (room : List Char) (x y : Int) : List Char :=
  '/' :: room ++ '/' :: (intRepr x ++ ':' :: intRepr y)

/-- The same key for already-natural coordinates. -/
def pixelKeyN (room : List Char) (x y : Nat) : List Char :=
  '/' :: room ++ '/' :: (natRepr x ++ ':' :: natRepr y)

/-- The prefix `fmt.Sprintf("/%s/", room)`. -/
def roomPfx (room : List Char) : List Char := '/' :: room ++ ['/']

/-- The chat key `fmt.Sprintf("/%s/%d", room, timestamp)` of part_000. -/
def chatKey (room : List Char) (timestamp : Int) : List Char :=
  '/' :: room ++ '/' :: intRepr timestamp

/-- The JSON batch decoded by part_000 `onPixelUpdate`. -/
structure PixelBatch where
  pixels : List Pixel
  room : List Char
  timestamp : Int
  batchId : String
  sourceId : String

/-- The JSON message decoded by part_000 `onChatMessages`. -/
structure ChatIncoming where
  message : String
  userId : String
  username : String
  room : List Char
  messageId : String
  timestamp : Int
  sourceId : String

/-- The in-process state of the part_000 variant: the two deduplication maps
and the `/canvas` and `/chat` database namespaces. -/
structure ServerState where
  processedBatchIds : List (String × Int)
  processedMessageIds : List (String × Int)
  canvasStore : List (List Char × Pixel)
  chatStore : List (List Char × ChatMessage)
deriving DecidableEq

/-- The pixel loop of part_000 `onPixelUpdate`: bounds-checked writes under
the key `/<room>/<x>:<y>`.  `putErr` tells which `db.Put` calls fail; a failed
put is skipped with `continue` exactly as in the source.  No color validation
is performed by this variant. -/
def writePixels (putErr : List Char → Bool) (room : List Char)
    (pixels : List Pixel) (store : List (List Char × Pixel)) :
    List (List Char × Pixel) :=
  pixels.foldl (fun st p =>
    if 0 ≤ p.x ∧ p.x < CanvasWidth ∧ 0 ≤ p.y ∧ p.y < CanvasHeight then
      let key := pixelKey room p.x p.y
      if putErr key then st else storePut st key p
    else st) store

/-- part_000 `onPixelUpdate`: dedup check first (which records the batch id),
then the per-pixel bounds-checked writes.  `dbFail` models a failing
`database.New` call. -/
def onPixelUpdate (dbFail : Bool) (putErr : List Char → Bool)
    (batch : PixelBatch) (s : ServerState) : ServerState :=
  let r := isBatchProcessed batch.batchId batch.timestamp s.processedBatchIds
  if r.1 then { s with processedBatchIds := r.2 }
  else
    let s1 := { s with processedBatchIds := r.2 }
    if dbFail then s1
    else
      let room := if batch.room = [] then "default".toList else batch.room
      { s1 with canvasStore := writePixels putErr room batch.pixels s1.canvasStore }

/-- part_000 `onChatMessages`: dedup on the message id, then a single put
under `/<room>/<timestamp>`.  `nowNanos`/`nowUnix` model the two `time.Now()`
defaulting branches; `putErr` models a failing `db.Put`. -/
def onChatMessages (dbFail : Bool) (putErr : Bool) (nowNanos nowUnix : Int)
    (msg : ChatIncoming) (s : ServerState) : ServerState :=
  let r := isMessageProcessed msg.messageId msg.timestamp s.processedMessageIds
  if r.1 then { s with processedMessageIds := r.2 }
  else
    let s1 := { s with processedMessageIds := r.2 }
    if dbFail then s1
    else
      let room := if msg.room = [] then "default".toList else msg.room
      let messageId :=
        if msg.messageId = "" then (intRepr nowNanos).asString else msg.messageId
      let ts := if msg.timestamp = 0 then nowUnix else msg.timestamp
      let key := chatKey room ts
      let record := ChatMessage.mk messageId msg.userId msg.username msg.message ts
      if putErr then s1 else { s1 with chatStore := storePut s1.chatStore key record }

/-- The 90 by 90 all-white grid part_000 `getCanvas` starts from. -/
def emptyGrid : List (List String) :=
  List.replicate 90 (List.replicate 90 "#ffffff")

/-- Model of `canvas[y][x] = color`. -/
def setCell (g : List (List String)) (x y : Nat) (c : String) :
    List (List String) :=
  g.set y ((g.getD y []).set x c)

/-- Cell access used to state properties about the produced grid. -/
def cellAt (g : List (List String)) (x y : Nat) : Option String :=
  (g[y]?).bind (fun row => row[x]?)

/-- One iteration of the key loop of part_000 `getCanvas`: parse
`/<room>/<x>:<y>`, bounds-check, `db.Get`, and set the cell to the stored
pixel's color. -/
def applyKey (store : List (List Char × Pixel)) (room : List Char)
    (g : List (List String)) (k : List Char) : List (List String) :=
  let pfx := roomPfx room
  if pfx.length < k.length then
    match parseCoord (k.drop pfx.length) with
    | some (x, y) =>
        if 0 ≤ x ∧ x < CanvasWidth ∧ 0 ≤ y ∧ y < CanvasHeight then
          match storeLookup store k with
          | some px => setCell g x.toNat y.toNat px.color
          | none => g
        else g
    | none => g
  else g

/-- part_000 `getCanvas` (the projection part): start from the white grid,
list the keys under `/<room>/` and apply each one. -/
def getCanvasGrid (room : List Char) (store : List (List Char × Pixel)) :
    List (List String) :=
  let pfx := roomPfx room
  let keys := (store.map Prod.fst).filter (fun k => pfx.isPrefixOf k)
  keys.foldl (fun g k => applyKey store room g k) emptyGrid

/-- The message-collection loop of part_000 `getMessages`: keys under
`/<room>/` whose tail parses as a `%d` timestamp, in store order. -/
def collectMessages (room : List Char)
    (chatStore : List (List Char × ChatMessage)) : List ChatMessage :=
  let pfx := roomPfx room
  let keys := (chatStore.map Prod.fst).filter (fun k => pfx.isPrefixOf k)
  keys.foldl (fun acc k =>
    if pfx.length < k.length then
      match parseTs (k.drop pfx.length) with
      | some _ =>
          match storeLookup chatStore k with
          | some m => acc ++ [m]
          | none => acc
      | none => acc
    else acc) []

/-- The body of the double loop of part_000 `getMessages`:
`if messages[i].Timestamp > messages[j].Timestamp { swap }`. -/
def sortStep (l : List ChatMessage) (i j : Nat) : List ChatMessage :=
  match l[i]?, l[j]? with
  | some a, some b =>
      if a.timestamp > b.timestamp then (l.set i b).set j a else l
  | _, _ => l

/-- The inner loop `for j := i + 1; j < len(messages); j++`. -/
def innerLoop (l : List ChatMessage) (i : Nat) : List ChatMessage :=
  (List.range' (i + 1) (l.length - (i + 1))).foldl
    (fun acc j => sortStep acc i j) l

/-- The outer loop `for i := 0; i < len(messages); i++` of the in-place
exchange sort of part_000 `getMessages`. -/
def exchangeSort (l : List ChatMessage) : List ChatMessage :=
  (List.range l.length).foldl innerLoop l

/-- part_000 `getMessages`: collect, sort by timestamp with the double loop,
keep the last 100. -/
def getMessages (room : List Char)
    (chatStore : List (List Char × ChatMessage)) : List ChatMessage :=
  let messages := exchangeSort (collectMessages room chatStore)
  if messages.length > 100 then messages.drop (messages.length - 100)
  else messages

end P0

/-- Model of `strings.ReplaceAll(s, p :: pr, "")`: one left-to-right pass,
skipping each non-overlapping occurrence, without rescanning the output.
Structural recursion on a fuel argument; every iteration consumes at least
one character, so a fuel equal to the input length (as passed by
`removeAll`) never runs out. -/
def removeAllCore (p : Char) (pr : List Char) : Nat → List Char → List Char
  | _, [] => []
  | 0, s => s
  | fuel + 1, c :: cs =>
      if (p :: pr).isPrefixOf (c :: cs) then
        removeAllCore p pr fuel (cs.drop pr.length)
      else c :: removeAllCore p pr fuel cs

/-- Model of `strings.ReplaceAll(s, pat, "")`. -/
def removeAll (pat : List Char) (s : List Char) : List Char :=
  match pat with
  | [] => s
  | p :: pr => removeAllCore p pr s.length s

/-- ASCII duplicate of `unicode.IsSpace` used by `strings.TrimSpace`
(no message in any statement below contains a non-ASCII space). -/
def isSpaceChar (c : Char) : Bool :=
  c == ' ' || c == '\t' || c == '\n' || c == '\r'

/-- Model of `strings.TrimSpace`. -/
def trimSpace (s : List Char) : List Char :=
  ((s.dropWhile isSpaceChar).reverse.dropWhile isSpaceChar).reverse

namespace P2

/-- part_002 `isValidColor`: length 7, leading `#`, and
`strings.ContainsAny(color[1:], "0123456789ABCDEFabcdef")` — that is,
at least ONE of the remaining characters is a hex digit. -/
def isValidColor (color : List Char) : Bool :=
  color.length == 7 && color.headD ' ' == '#' &&
    (color.drop 1).any (fun c => "0123456789ABCDEFabcdef".toList.contains c)

/-- part_002 `sanitizeMessage`: strip the six denylist substrings (one
`ReplaceAll` pass each), truncate to 500, then `TrimSpace`. -/
def sanitizeMessage (message : List Char) : List Char :=
  let m1 := removeAll "<script".toList message
  let m2 := removeAll "</script>".toList m1
  let m3 := removeAll "javascript:".toList m2
  let m4 := removeAll "onload=".toList m3
  let m5 := removeAll "onerror=".toList m4
  let m6 := removeAll "onclick=".toList m5
  let m7 := if m6.length > 500 then m6.take 500 else m6
  trimSpace m7

end P2

namespace B3

/-- backend.go (third document) `User`. -/
structure User where
  id : String
  username : String
  color : String
  isOnline : Bool
  lastSeen : Int
  pixelsPlaced : Int
deriving DecidableEq

def UserTimeout : Int := 30000

/-- backend.go `isValidColor`: length 7, leading `#`, and every remaining
character a hex digit. -/
def isValidColor (color : List Char) : Bool :=
  color.length == 7 && color.headD ' ' == '#' &&
    (color.drop 1).all (fun c =>
      ('0' ≤ c && c ≤ '9') || ('a' ≤ c && c ≤ 'f') || ('A' ≤ c && c ≤ 'F'))

/-- backend.go `sanitizeMessage`: truncate to 500 first, then strip
`<script`, `</script>` and `javascript:` (one `ReplaceAll` pass each). -/
def sanitizeMessage (message : List Char) : List Char :=
  let m1 := if message.length > 500 then message.take 500 else message
  let m2 := removeAll "<script".toList m1
  let m3 := removeAll "</script>".toList m2
  removeAll "javascript:".toList m3

/-- backend.go `getUsersFromDB`: list every per-user key, and keep only the
users with `now - LastSeen <= UserTimeout`. -/
def getUsersFromDB (now : Int) (store : List (String × User)) : List User :=
  store.foldl (fun acc kv =>
    if now - kv.2.lastSeen ≤ UserTimeout then acc ++ [kv.2] else acc) []

/-- Direct lookup by user id (`db.Get(pixel.UserID)` in the same variant). -/
def getUser (store : List (String × User)) (id : String) : Option User :=
  storeLookup store id

end B3

namespace P3

/-- part_003 `User` (with `CooldownEnds`). -/
structure User where
  id : String
  username : String
  color : String
  isOnline : Bool
  lastSeen : Int
  pixelsPlaced : Int
  cooldownEnds : Int
deriving DecidableEq

/-- part_003 `getUsersFromDB`: every stored user is returned; the `IsOnline`
flag is recomputed from `now - LastSeen < 30000`, but nobody is filtered
out. -/
def getUsersFromDB (now : Int) (store : List (String × User)) : List User :=
  store.foldl (fun acc kv =>
    acc ++ [{ kv.2 with isOnline := decide (now - kv.2.lastSeen < 30000) }]) []

end P3

namespace B1

/-- The 90 by 90 all-white canvas built by backend.go (first document)
`getCanvas` when `db.Get` fails. -/
def emptyCanvas : List (List String) :=
  List.replicate 90 (List.replicate 90 "#ffffff")

/-- The key `"room:" + room`. -/
def canvasKey (room : List Char) : List Char := "room:".toList ++ room

/-- backend.go (first document) `getCanvas`: serve the stored blob, or the
freshly built empty canvas when the read fails. -/
def getCanvas (room : List Char)
    (store : List (List Char × List (List String))) : List (List String) :=
  match storeLookup store (canvasKey room) with
  | some v => v
  | none => emptyCanvas

end B1

namespace P5

/-- part_005 (second document) `Pixel`. -/
structure Pixel where
  x : Int
  y : Int
  color : String
  userId : String
  username : String
deriving DecidableEq

/-- part_005 `createEmptyCanvas`: 100 by 100 white pixels carrying their own
coordinates. -/
def createEmptyCanvas : List (List Pixel) :=
  (List.range 100).map (fun y =>
    (List.range 100).map (fun x => Pixel.mk x y "#ffffff" "" ""))

/-- part_005 `loadCanvas`: a failing `database.New` returns the empty canvas
without saving; a failing `db.Get` returns the empty canvas after a
best-effort save (whose own error is ignored). -/
def loadCanvas (dbFail : Bool) (putFail : Bool)
    (store : List (String × List (List Pixel))) :
    List (List Pixel) × List (String × List (List Pixel)) :=
  if dbFail then (createEmptyCanvas, store)
  else
    match storeLookup store "data" with
    | none =>
        (createEmptyCanvas,
         if putFail then store else storePut store "data" createEmptyCanvas)
    | some c => (c, store)

end P5

/-- Index-wise timestamp order used to reason about the double-loop sort of
part_000 `getMessages`: whatever sits at position `p` is no later than what
sits at position `q`. -/
def tsLeAt (l : List P0.ChatMessage) (p q : Nat) : Prop :=
  ∀ a b, l[p]? = some a → l[q]? = some b → a.timestamp ≤ b.timestamp

/-- The outer-loop invariant of the double-loop sort: every position below
`n` is timestamp-ordered below every later position. -/
def SortedUpTo (l : List P0.ChatMessage) (n : Nat) : Prop :=
  ∀ p q, p < q → p < n → tsLeAt l p q

/-- A room identifier that the key scheme keeps unambiguous: non-empty and
free of the path separator.  (The source never validates rooms; the spec
flags separator-carrying rooms as an open question.) -/
def RoomOk (r : List Char) : Prop := r ≠ [] ∧ '/' ∉ r

/-- A canvas key as actually produced by the part_000 pixel writer for a
well-behaved room: `/<room>/<x>:<y>` with in-bounds coordinates. -/
def CanonicalKey (k : List Char) : Prop :=
  ∃ (r : List Char) (x y : Nat),
    RoomOk r ∧ x < 90 ∧ y < 90 ∧ k = P0.pixelKeyN r x y

/-- The canvas namespace invariant maintained by pixel writes with
well-behaved rooms: distinct keys, all canonical. -/
def WFCanvasStore (store : List (List Char × P0.Pixel)) : Prop :=
  (store.map Prod.fst).Nodup ∧ ∀ kv ∈ store, CanonicalKey kv.1

/-- A 90-row grid of 90-cell rows (the shape of `emptyGrid` preserved by
every `setCell`). -/
def GoodGrid (g : List (List String)) : Prop :=
  g.length = 90 ∧ ∀ row ∈ g, row.length = 90

section ConcreteInputs

open P0

/-- A 1000-entry deduplication map reachable by 1000 distinct fresh batch
ids; used to exhibit the eviction behaviour. -/
def bigBatchMap : List (String × Int) :=
  (List.range 1000).map (fun i => ("a" ++ Nat.repr i, (0 : Int)))

def exStateFull : ServerState := ServerState.mk bigBatchMap [] [] []

def exPixelA : Pixel := Pixel.mk 0 0 "#111111" "u" "n"
def exPixelB : Pixel := Pixel.mk 1 1 "#222222" "u" "n"

def exBatchA : PixelBatch := PixelBatch.mk [exPixelA] "r".toList 1 "bb" ""
def exBatchB : PixelBatch := PixelBatch.mk [exPixelB] "r".toList 2 "bb" ""

def noPutErr : List Char → Bool := fun _ => false

/-- State after the first delivery of batch id `"bb"` (its pixel is written,
and the id is recorded and immediately evicted by the cleanup). -/
def exStateAfter1 : ServerState := onPixelUpdate false noPutErr exBatchA exStateFull

/-- State after a second delivery of the SAME batch id `"bb"`. -/
def exStateAfter2 : ServerState := onPixelUpdate false noPutErr exBatchB exStateAfter1

def emptyState : ServerState := ServerState.mk [] [] [] []

/-- Room-aliasing inputs for the canvas claim: three writes through
`onPixelUpdate`, the second using a room name containing both a path
separator and a coordinate-shaped segment. -/
def aliasState1 : ServerState :=
  onPixelUpdate false noPutErr
    (PixelBatch.mk [Pixel.mk 0 0 "#101010" "u" "n"] "a".toList 1 "w1" "") emptyState

def aliasState2 : ServerState :=
  onPixelUpdate false noPutErr
    (PixelBatch.mk [Pixel.mk 0 0 "#222222" "u" "n"] "a/0:0q".toList 2 "w2" "")
    aliasState1

def aliasState3 : ServerState :=
  onPixelUpdate false noPutErr
    (PixelBatch.mk [Pixel.mk 0 0 "#333333" "u" "n"] "a".toList 3 "w3" "")
    aliasState2

/-- Chat store with three distinct keys whose records carry a timestamp tie:
key order `/r/1`, `/r/2`, `/r/3`; record timestamps 5, 5, 4. -/
def tieChatStore : List (List Char × ChatMessage) :=
  [("/r/1".toList, ChatMessage.mk "m1" "" "" "" 5),
   ("/r/2".toList, ChatMessage.mk "m2" "" "" "" 5),
   ("/r/3".toList, ChatMessage.mk "m3" "" "" "" 4)]

/-- A put oracle that fails exactly on the key of cell (1,1) of room r. -/
def failPutAt11 : List Char → Bool := fun k => k == pixelKey "r".toList 1 1

/-- A batch carrying two in-bounds pixels, used with `failPutAt11` to show a
partially failing unit of work. -/
def exTwoPixBatch : PixelBatch :=
  PixelBatch.mk [exPixelA, exPixelB] "r".toList 1 "w2p" ""

/-- A user last seen at time 0 (stale at now = 31000 with the 30s timeout). -/
def exStaleUserB3 : B3.User := B3.User.mk "u1" "alice" "#000000" true 0 1

/-- A user last seen at time 30000 (fresh at now = 31000). -/
def exFreshUserB3 : B3.User := B3.User.mk "u2" "bob" "#000000" true 30000 2

/-- The part_003 shape of the stale user. -/
def exStaleUserP3 : P3.User := P3.User.mk "u1" "alice" "#000000" true 0 1 0

/-- A batch carrying one out-of-bounds pixel (x = 99 on the 90-wide canvas). -/
def exOOBBatch : PixelBatch :=
  PixelBatch.mk [Pixel.mk 99 5 "#000000" "u" "n"] "r".toList 1 "w0" ""

/-- A batch carrying one in-bounds pixel with a malformed color string. -/
def exColorBatch : PixelBatch :=
  PixelBatch.mk [Pixel.mk 0 0 "zzz" "u" "n"] "r".toList 1 "wc" ""

def exChatMsg1 : ChatIncoming := ChatIncoming.mk "hello" "u1" "alice" "r".toList "m1" 5 ""
def exChatMsg2 : ChatIncoming := ChatIncoming.mk "world" "u2" "bob" "r".toList "m2" 5 ""

/-- State after appending `exChatMsg1` then `exChatMsg2` (distinct message
ids, the same room and the same timestamp). -/
def exChatState2 : ServerState :=
  onChatMessages false false 0 0 exChatMsg2
    (onChatMessages false false 0 0 exChatMsg1 emptyState)

end ConcreteInputs

/-! ### Lemmas about the store model -/

theorem storeLookup_append {κ α : Type} [DecidableEq κ] (s t : List (κ × α)) (k : κ) :
    storeLookup (s ++ t) k =
      match storeLookup s k with
      | some v => some v
      | none => storeLookup t k := by
  induction s with
  | nil => simp [storeLookup]
  | cons kv rest ih =>
      by_cases h : kv.1 = k <;> simp [storeLookup, h, ih]

theorem storeLookup_map_overwrite {κ α : Type} [DecidableEq κ]
    (s : List (κ × α)) (k k' : κ) (v : α) (hne : k' ≠ k) :
    storeLookup (s.map (fun kv => if kv.1 = k then (k, v) else kv)) k' =
      storeLookup s k' := by
  induction s with
  | nil => simp [storeLookup]
  | cons kv rest ih =>
      by_cases h : kv.1 = k
      · have : k ≠ k' := fun hh => hne hh.symm
        simp [storeLookup, h, this, ih]
      · by_cases h2 : kv.1 = k' <;>
          simp [storeLookup, h, h2, hne, ih]

theorem storeLookup_map_overwrite_self {κ α : Type} [DecidableEq κ]
    (s : List (κ × α)) (k : κ) (v : α) (hmem : (storeLookup s k).isSome) :
    storeLookup (s.map (fun kv => if kv.1 = k then (k, v) else kv)) k = some v := by
  induction s with
  | nil => simp [storeLookup] at hmem
  | cons kv rest ih =>
      by_cases h : kv.1 = k
      · simp [storeLookup, h]
      · simp [storeLookup, h] at hmem ⊢
        exact ih hmem

theorem storeLookup_storePut_self {κ α : Type} [DecidableEq κ]
    (s : List (κ × α)) (k : κ) (v : α) :
    storeLookup (storePut s k v) k = some v := by
  unfold storePut
  by_cases h : (storeLookup s k).isSome
  · simp only [h, if_true]
    exact storeLookup_map_overwrite_self s k v h
  · rw [if_neg h, storeLookup_append]
    have hn : storeLookup s k = none := by
      cases hh : storeLookup s k
      · rfl
      · rw [hh] at h; simp at h
    simp [hn, storeLookup]

theorem storeLookup_storePut_other {κ α : Type} [DecidableEq κ]
    (s : List (κ × α)) (k k' : κ) (v : α) (hne : k' ≠ k) :
    storeLookup (storePut s k v) k' = storeLookup s k' := by
  unfold storePut
  by_cases h : (storeLookup s k).isSome
  · simp only [h, if_true]
    exact storeLookup_map_overwrite s k k' v hne
  · rw [if_neg h, storeLookup_append]
    cases hh : storeLookup s k'
    · simp [storeLookup, Ne.symm hne]
    · simp

/-! ### Lemmas about the deduplication guard (part_000) -/

theorem isBatchProcessed_empty_id (ts : Int) (m : List (String × Int)) :
    P0.isBatchProcessed "" ts m = (false, m) := by
  simp [P0.isBatchProcessed]

theorem isBatchProcessed_dup (t : String) (ts : Int) (m : List (String × Int))
    (ht : t ≠ "") (h : (storeLookup m t).isSome) :
    P0.isBatchProcessed t ts m = (true, m) := by
  simp [P0.isBatchProcessed, ht, h]

theorem isBatchProcessed_fresh_fst (t : String) (ts : Int)
    (m : List (String × Int)) (h : storeLookup m t = none) :
    (P0.isBatchProcessed t ts m).1 = false := by
  by_cases he : t = ""
  · rw [he, isBatchProcessed_empty_id]
  · unfold P0.isBatchProcessed
    rw [if_neg he, h]
    split
    · rename_i hc
      simp at hc
    · show (if ((t, ts) :: m).length > P0.MAX_PROCESSED_BATCHES then
          (false, ((t, ts) :: m).drop 200) else (false, (t, ts) :: m)).1 = false
      split <;> rfl

theorem isBatchProcessed_fresh_small (t : String) (ts : Int)
    (m : List (String × Int)) (ht : t ≠ "") (h : storeLookup m t = none)
    (hlen : m.length ≤ 999) :
    P0.isBatchProcessed t ts m = (false, (t, ts) :: m) := by
  unfold P0.isBatchProcessed
  rw [if_neg ht, h]
  split
  · rename_i hc
    simp at hc
  · have hle : ¬(((t, ts) :: m).length > P0.MAX_PROCESSED_BATCHES) := by
      simp only [List.length_cons, P0.MAX_PROCESSED_BATCHES, gt_iff_lt, not_lt]
      omega
    simp only [hle, if_false]

theorem onPixelUpdate_dup (dbFail : Bool) (putErr : List Char → Bool)
    (b : P0.PixelBatch) (s : P0.ServerState) (ts' : Int)
    (hne : b.batchId ≠ "")
    (h : storeLookup s.processedBatchIds b.batchId = some ts') :
    P0.onPixelUpdate dbFail putErr b s = s := by
  unfold P0.onPixelUpdate
  rw [isBatchProcessed_dup _ _ _ hne (by simp [h])]
  rfl

/-- C3: `Accept(token, t)` is the negation of `isBatchProcessed`.  An empty
token is never treated as processed (always accepted) and is not recorded; a
token absent from the map is not processed (accepted) on its first check and,
when no cleanup triggers, is recorded; a token present in the map is reported
processed (rejected) with the map unchanged; and a delivery whose batch id is
already recorded leaves the whole server state — in particular the persisted
pixel records — unchanged. -/
theorem c3_dedup_first_accept_then_reject :
    (∀ (ts : Int) (m : List (String × Int)),
        P0.isBatchProcessed "" ts m = (false, m)) ∧
    (∀ (t : String) (ts : Int) (m : List (String × Int)),
        storeLookup m t = none → (P0.isBatchProcessed t ts m).1 = false) ∧
    (∀ (t : String) (ts : Int) (m : List (String × Int)),
        t ≠ "" → storeLookup m t = none → m.length ≤ 999 →
        P0.isBatchProcessed t ts m = (false, (t, ts) :: m)) ∧
    (∀ (t : String) (ts : Int) (m : List (String × Int)),
        t ≠ "" → (storeLookup m t).isSome →
        P0.isBatchProcessed t ts m = (true, m)) ∧
    (∀ (dbFail : Bool) (putErr : List Char → Bool) (b : P0.PixelBatch)
        (s : P0.ServerState) (ts' : Int),
        b.batchId ≠ "" → storeLookup s.processedBatchIds b.batchId = some ts' →
        P0.onPixelUpdate dbFail putErr b s = s) :=
  ⟨isBatchProcessed_empty_id, isBatchProcessed_fresh_fst,
   fun t ts m ht h hl => isBatchProcessed_fresh_small t ts m ht h hl,
   isBatchProcessed_dup, onPixelUpdate_dup⟩

/-- Witness for C3 at concrete inputs. -/
theorem c3_dedup_first_accept_then_reject_witness :
    P0.isBatchProcessed "" 7 [] = (false, []) ∧
    (P0.isBatchProcessed "b1" 7 []).1 = false ∧
    P0.isBatchProcessed "b1" 7 [] = (false, [("b1", 7)]) ∧
    P0.isBatchProcessed "b1" 8 [("b1", 7)] = (true, [("b1", 7)]) ∧
    P0.onPixelUpdate false noPutErr (P0.PixelBatch.mk [exPixelA] "r".toList 1 "b1" "")
        (P0.ServerState.mk [("b1", 7)] [] [] []) =
      P0.ServerState.mk [("b1", 7)] [] [] [] :=
  ⟨c3_dedup_first_accept_then_reject.1 7 [],
   c3_dedup_first_accept_then_reject.2.1 "b1" 7 [] rfl,
   c3_dedup_first_accept_then_reject.2.2.1 "b1" 7 [] (by decide) rfl (by decide),
   c3_dedup_first_accept_then_reject.2.2.2.1 "b1" 8 [("b1", 7)] (by decide) (by decide),
   c3_dedup_first_accept_then_reject.2.2.2.2 false noPutErr
     (P0.PixelBatch.mk [exPixelA] "r".toList 1 "b1" "")
     (P0.ServerState.mk [("b1", 7)] [] [] []) 7 (by decide) rfl⟩

/-- C9: starting from a map within its capacity of 1000, the map is again
within capacity after any guard call, and whenever recording a new token
makes it exceed 1000 entries a batch of 200 entries is deleted before the
call returns (1001 entries shrink to 801). -/
theorem c9_dedup_capacity (t : String) (ts : Int) (m : List (String × Int))
    (hcap : m.length ≤ 1000) :
    (P0.isBatchProcessed t ts m).2.length ≤ 1000 ∧
    (t ≠ "" → storeLookup m t = none → 1000 < m.length + 1 →
      (P0.isBatchProcessed t ts m).2.length = m.length + 1 - 200) := by
  unfold P0.isBatchProcessed
  by_cases he : t = ""
  · constructor
    · simp [he]
      omega
    · intro ht
      exact absurd he ht
  · by_cases hs : (storeLookup m t).isSome
    · constructor
      · simp [he, hs]
        omega
      · intro ht hnone
        rw [hnone] at hs
        simp at hs
    · have hnone : storeLookup m t = none := by
        cases hh : storeLookup m t
        · rfl
        · rw [hh] at hs; simp at hs
      rw [hnone]
      have hred : (if (none : Option Int).isSome = true then
          (true, m)
        else
          let mm := (t, ts) :: m
          if mm.length > P0.MAX_PROCESSED_BATCHES then (false, mm.drop 200)
          else (false, mm)) =
          (if ((t, ts) :: m).length > P0.MAX_PROCESSED_BATCHES then
            (false, ((t, ts) :: m).drop 200)
          else (false, (t, ts) :: m)) := by
        rfl
      rw [hred, if_neg he]
      by_cases hover : ((t, ts) :: m).length > P0.MAX_PROCESSED_BATCHES
      · rw [if_pos hover]
        simp only [List.length_cons, P0.MAX_PROCESSED_BATCHES, gt_iff_lt] at hover
        constructor
        · simp only [List.length_drop, List.length_cons]
          omega
        · intro ht hn hov
          simp only [List.length_drop, List.length_cons, P0.MAX_PROCESSED_BATCHES]
      · rw [if_neg hover]
        simp only [List.length_cons, P0.MAX_PROCESSED_BATCHES, gt_iff_lt,
          not_lt] at hover
        constructor
        · simp only [List.length_cons]
          omega
        · intro ht hn hov
          omega

/-- Witness for C9 at a concrete full map: recording a fresh token in a map
holding 1000 entries shrinks it to 801. -/
theorem c9_dedup_capacity_witness :
    (P0.isBatchProcessed "b" 5 bigBatchMap).2.length ≤ 1000 ∧
    ("b" ≠ "" → storeLookup bigBatchMap "b" = none → 1000 < bigBatchMap.length + 1 →
      (P0.isBatchProcessed "b" 5 bigBatchMap).2.length = bigBatchMap.length + 1 - 200) :=
  c9_dedup_capacity "b" 5 bigBatchMap (by simp [bigBatchMap])

/-! ### Lemmas about the pixel writer (part_000) -/

/-- Branch-level restatement of `onPixelUpdate` (pure unfolding). -/
theorem onPixelUpdate_eq (dbFail : Bool) (putErr : List Char → Bool)
    (b : P0.PixelBatch) (s : P0.ServerState) :
    P0.onPixelUpdate dbFail putErr b s =
      (if (P0.isBatchProcessed b.batchId b.timestamp s.processedBatchIds).1 = true
       then { s with processedBatchIds :=
            (P0.isBatchProcessed b.batchId b.timestamp s.processedBatchIds).2 }
       else if dbFail = true
       then { s with processedBatchIds :=
            (P0.isBatchProcessed b.batchId b.timestamp s.processedBatchIds).2 }
       else { s with
              processedBatchIds :=
                (P0.isBatchProcessed b.batchId b.timestamp s.processedBatchIds).2,
              canvasStore :=
                P0.writePixels putErr
                  (if b.room = [] then "default".toList else b.room)
                  b.pixels s.canvasStore }) := rfl

/-- C10 (amended): checking a new non-empty batch token records it in the
deduplication map during the very first check, before any store write is
attempted — even when opening the database fails or every put fails —
provided the map has room (otherwise the cleanup may evict the token in the
same call); and as long as a batch id remains recorded, a delivery carrying
it leaves the entire state, in particular the store, unchanged.  The
guarantee lapses once the token is evicted by the capacity cleanup. -/
theorem c10_token_recorded_before_any_write :
    (∀ (dbFail : Bool) (putErr : List Char → Bool) (b : P0.PixelBatch)
        (s : P0.ServerState),
        b.batchId ≠ "" → storeLookup s.processedBatchIds b.batchId = none →
        s.processedBatchIds.length ≤ 999 →
        storeLookup (P0.onPixelUpdate dbFail putErr b s).processedBatchIds
          b.batchId = some b.timestamp) ∧
    (∀ (dbFail : Bool) (putErr : List Char → Bool) (b : P0.PixelBatch)
        (s : P0.ServerState) (ts' : Int),
        b.batchId ≠ "" → storeLookup s.processedBatchIds b.batchId = some ts' →
        P0.onPixelUpdate dbFail putErr b s = s) := by
  constructor
  · intro dbFail putErr b s hne hfresh hlen
    rw [onPixelUpdate_eq]
    have h1 : (P0.isBatchProcessed b.batchId b.timestamp s.processedBatchIds).1
        = false := isBatchProcessed_fresh_fst _ _ _ hfresh
    rw [if_neg (by rw [h1]; simp)]
    have h2 : (P0.isBatchProcessed b.batchId b.timestamp s.processedBatchIds).2
        = (b.batchId, b.timestamp) :: s.processedBatchIds := by
      rw [isBatchProcessed_fresh_small _ _ _ hne hfresh hlen]
    by_cases hd : dbFail = true
    · rw [if_pos hd]
      show storeLookup
          ((P0.isBatchProcessed b.batchId b.timestamp s.processedBatchIds).2)
          b.batchId = some b.timestamp
      rw [h2]
      simp [storeLookup]
    · rw [if_neg hd]
      show storeLookup
          ((P0.isBatchProcessed b.batchId b.timestamp s.processedBatchIds).2)
          b.batchId = some b.timestamp
      rw [h2]
      simp [storeLookup]
  · intro dbFail putErr b s ts' hne h
    exact onPixelUpdate_dup dbFail putErr b s ts' hne h

/-- Witness for C10 at concrete inputs: a fresh delivery whose database open
fails still records its token, and a delivery with a recorded token is a
no-op. -/
theorem c10_token_recorded_before_any_write_witness :
    storeLookup (P0.onPixelUpdate true noPutErr
        (P0.PixelBatch.mk [] "r".toList 9 "w9" "") emptyState).processedBatchIds
      "w9" = some 9 ∧
    P0.onPixelUpdate false noPutErr
        (P0.PixelBatch.mk [exPixelA] "r".toList 1 "w9" "")
        (P0.ServerState.mk [("w9", 9)] [] [] []) =
      P0.ServerState.mk [("w9", 9)] [] [] [] :=
  ⟨c10_token_recorded_before_any_write.1 true noPutErr
      (P0.PixelBatch.mk [] "r".toList 9 "w9" "") emptyState (by decide) rfl
      (by decide),
   c10_token_recorded_before_any_write.2 false noPutErr
      (P0.PixelBatch.mk [exPixelA] "r".toList 1 "w9" "")
      (P0.ServerState.mk [("w9", 9)] [] [] []) 9 (by decide) rfl⟩

set_option maxRecDepth 40000 in
/-- Counterexample for C10 as stated: from a reachable state whose map holds
1000 other ids, the first delivery of batch id `"bb"` checks and records it
and writes its pixel, but the capacity cleanup evicts `"bb"` again within
the same call; a LATER delivery carrying the same `"bb"` then writes to the
store (cell (1,1) changes from unset to `exPixelB`).  So once a batch id has
been checked, later deliveries with the same id can still write. -/
theorem c10_eviction_rewrite_counterexample :
    storeLookup exStateFull.processedBatchIds "bb" = none ∧
    storeLookup exStateAfter1.canvasStore (P0.pixelKey "r".toList 0 0) =
      some exPixelA ∧
    storeLookup exStateAfter1.canvasStore (P0.pixelKey "r".toList 1 1) = none ∧
    storeLookup exStateAfter2.canvasStore (P0.pixelKey "r".toList 1 1) =
      some exPixelB := by
  refine ⟨?_, ?_, ?_, ?_⟩ <;> decide

/-- C2 (amended): an out-of-bounds pixel is rejected — the canvas namespace
is untouched whatever the dedup or failure situation, and every room reads
back unchanged — but color is NOT validated by this writer: an in-bounds
pixel carrying an arbitrary color string is persisted as is. -/
theorem c2_bounds_rejected_color_unchecked :
    (∀ (dbFail : Bool) (putErr : List Char → Bool) (b : P0.PixelBatch)
        (s : P0.ServerState) (p : P0.Pixel),
        b.pixels = [p] →
        ¬(0 ≤ p.x ∧ p.x < P0.CanvasWidth ∧ 0 ≤ p.y ∧ p.y < P0.CanvasHeight) →
        (P0.onPixelUpdate dbFail putErr b s).canvasStore = s.canvasStore ∧
        ∀ room : List Char,
          P0.getCanvasGrid room (P0.onPixelUpdate dbFail putErr b s).canvasStore =
            P0.getCanvasGrid room s.canvasStore) ∧
    (∀ (b : P0.PixelBatch) (s : P0.ServerState) (p : P0.Pixel),
        b.pixels = [p] → b.room ≠ [] → b.batchId ≠ "" →
        storeLookup s.processedBatchIds b.batchId = none →
        (0 ≤ p.x ∧ p.x < P0.CanvasWidth ∧ 0 ≤ p.y ∧ p.y < P0.CanvasHeight) →
        storeLookup (P0.onPixelUpdate false noPutErr b s).canvasStore
          (P0.pixelKey b.room p.x p.y) = some p) := by
  constructor
  · intro dbFail putErr b s p hb hout
    have hstore :
        (P0.onPixelUpdate dbFail putErr b s).canvasStore = s.canvasStore := by
      rw [onPixelUpdate_eq]
      by_cases h1 : (P0.isBatchProcessed b.batchId b.timestamp
          s.processedBatchIds).1 = true
      · rw [if_pos h1]
      · rw [if_neg h1]
        by_cases hd : dbFail = true
        · rw [if_pos hd]
        · rw [if_neg hd]
          show P0.writePixels putErr _ b.pixels s.canvasStore = s.canvasStore
          rw [hb]
          simp [P0.writePixels, hout]
    exact ⟨hstore, fun room => by rw [hstore]⟩
  · intro b s p hb hroom hbid hfresh hin
    rw [onPixelUpdate_eq]
    have h1 : (P0.isBatchProcessed b.batchId b.timestamp s.processedBatchIds).1
        = false := isBatchProcessed_fresh_fst _ _ _ hfresh
    rw [if_neg (by rw [h1]; simp), if_neg (by simp), if_neg hroom]
    show storeLookup (P0.writePixels noPutErr b.room b.pixels s.canvasStore)
        (P0.pixelKey b.room p.x p.y) = some p
    rw [hb]
    show storeLookup
        (if 0 ≤ p.x ∧ p.x < P0.CanvasWidth ∧ 0 ≤ p.y ∧ p.y < P0.CanvasHeight then
          if noPutErr (P0.pixelKey b.room p.x p.y) = true then s.canvasStore
          else storePut s.canvasStore (P0.pixelKey b.room p.x p.y) p
         else s.canvasStore)
        (P0.pixelKey b.room p.x p.y) = some p
    rw [if_pos hin, if_neg (by simp [noPutErr])]
    exact storeLookup_storePut_self _ _ _

/-- Witness for C2 at concrete inputs: the out-of-bounds batch leaves the
empty store empty, and the in-bounds batch with the malformed color `"zzz"`
is persisted. -/
theorem c2_bounds_rejected_color_unchecked_witness :
    (P0.onPixelUpdate false noPutErr exOOBBatch emptyState).canvasStore =
      emptyState.canvasStore ∧
    storeLookup (P0.onPixelUpdate false noPutErr exColorBatch emptyState).canvasStore
      (P0.pixelKey "r".toList 0 0) = some (P0.Pixel.mk 0 0 "zzz" "u" "n") :=
  ⟨(c2_bounds_rejected_color_unchecked.1 false noPutErr exOOBBatch emptyState
      (P0.Pixel.mk 99 5 "#000000" "u" "n") rfl (by decide)).1,
   c2_bounds_rejected_color_unchecked.2 exColorBatch emptyState
      (P0.Pixel.mk 0 0 "zzz" "u" "n") rfl (by decide) (by decide) rfl (by decide)⟩

/-- Counterexample for C2 as stated: `"zzz"` does not match the hex-color
format, yet the delivery persists a record for it (the batch writer never
validates color); moreover the `isValidColor` helper of part_002 accepts
`"#zzzzz0"`, a string that is not `'#'` followed by six hex digits. -/
theorem c2_malformed_color_persisted_counterexample :
    B3.isValidColor "zzz".toList = false ∧
    P2.isValidColor "#zzzzz0".toList = true ∧
    B3.isValidColor "#zzzzz0".toList = false ∧
    storeLookup (P0.onPixelUpdate false noPutErr exColorBatch emptyState).canvasStore
      (P0.pixelKey "r".toList 0 0) = some (P0.Pixel.mk 0 0 "zzz" "u" "n") := by
  refine ⟨?_, ?_, ?_, ?_⟩ <;> decide

/-! ### Presence listings (C5) -/

theorem b3_getUsers_mem_le (now : Int) (store : List (String × B3.User)) :
    ∀ (acc : List B3.User) (u : B3.User),
      u ∈ store.foldl (fun acc kv =>
        if now - kv.2.lastSeen ≤ B3.UserTimeout then acc ++ [kv.2] else acc) acc →
      u ∈ acc ∨ now - u.lastSeen ≤ B3.UserTimeout := by
  induction store with
  | nil =>
      intro acc u h
      exact Or.inl h
  | cons kv rest ih =>
      intro acc u h
      simp only [List.foldl_cons] at h
      rcases ih _ u h with hacc | hle
      · by_cases hc : now - kv.2.lastSeen ≤ B3.UserTimeout
        · rw [if_pos hc] at hacc
          rcases List.mem_append.1 hacc with h1 | h2
          · exact Or.inl h1
          · right
            rw [List.mem_singleton.1 h2]
            exact hc
        · rw [if_neg hc] at hacc
          exact Or.inl hacc
      · exact Or.inr hle

theorem p3_getUsers_mem_flag (now : Int) (store : List (String × P3.User)) :
    ∀ (acc : List P3.User) (u : P3.User),
      u ∈ store.foldl (fun acc kv =>
        acc ++ [{ kv.2 with isOnline := decide (now - kv.2.lastSeen < 30000) }]) acc →
      u ∈ acc ∨ u.isOnline = decide (now - u.lastSeen < 30000) := by
  induction store with
  | nil =>
      intro acc u h
      exact Or.inl h
  | cons kv rest ih =>
      intro acc u h
      simp only [List.foldl_cons] at h
      rcases ih _ u h with hacc | hflag
      · rcases List.mem_append.1 hacc with h1 | h2
        · exact Or.inl h1
        · right
          rw [List.mem_singleton.1 h2]
      · exact Or.inr hflag

/-- C5 (amended): in the backend.go variant every user returned by the
online-users listing satisfies `now - lastSeen <= UserTimeout`, so a stale
user is excluded while remaining retrievable by direct id lookup with its
pixel count intact; in the part_003 variant stale users are NOT excluded —
every stored user is returned, with the `isOnline` flag derived from
`now - lastSeen < 30000`. -/
theorem c5_offline_excluded_from_listing :
    (∀ (now : Int) (store : List (String × B3.User)) (u : B3.User),
        u ∈ B3.getUsersFromDB now store → now - u.lastSeen ≤ B3.UserTimeout) ∧
    (∀ (now : Int) (store : List (String × B3.User)) (id : String) (u : B3.User),
        storeLookup store id = some u → B3.UserTimeout < now - u.lastSeen →
        u ∉ B3.getUsersFromDB now store ∧
        B3.getUser store id = some u ∧
        (B3.getUser store id).map B3.User.pixelsPlaced = some u.pixelsPlaced) ∧
    (∀ (now : Int) (store : List (String × P3.User)) (u : P3.User),
        u ∈ P3.getUsersFromDB now store →
        u.isOnline = decide (now - u.lastSeen < 30000)) := by
  refine ⟨?_, ?_, ?_⟩
  · intro now store u hmem
    rcases b3_getUsers_mem_le now store [] u hmem with h | h
    · simp at h
    · exact h
  · intro now store id u hget hstale
    refine ⟨?_, hget, by rw [B3.getUser, hget]; rfl⟩
    intro hmem
    rcases b3_getUsers_mem_le now store [] u hmem with h | h
    · simp at h
    · omega
  · intro now store u hmem
    rcases p3_getUsers_mem_flag now store [] u hmem with h | h
    · simp at h
    · exact h

/-- Witness for C5 at concrete inputs: at `now = 31000`, the user last seen
at 0 is absent from the backend.go listing but still readable with its pixel
count, while the fresh user in the same listing is within the timeout. -/
theorem c5_offline_excluded_from_listing_witness :
    (31000 - exFreshUserB3.lastSeen ≤ B3.UserTimeout) ∧
    (exStaleUserB3 ∉
        B3.getUsersFromDB 31000 [("u1", exStaleUserB3), ("u2", exFreshUserB3)] ∧
      B3.getUser [("u1", exStaleUserB3), ("u2", exFreshUserB3)] "u1" =
        some exStaleUserB3 ∧
      (B3.getUser [("u1", exStaleUserB3), ("u2", exFreshUserB3)] "u1").map
          B3.User.pixelsPlaced = some exStaleUserB3.pixelsPlaced) ∧
    ({ exStaleUserP3 with isOnline := false }.isOnline =
      decide ((31000 : Int) - { exStaleUserP3 with isOnline := false }.lastSeen < 30000)) :=
  ⟨c5_offline_excluded_from_listing.1 31000
      [("u1", exStaleUserB3), ("u2", exFreshUserB3)] exFreshUserB3 (by decide),
   c5_offline_excluded_from_listing.2.1 31000
      [("u1", exStaleUserB3), ("u2", exFreshUserB3)] "u1" exStaleUserB3
      (by decide) (by decide),
   c5_offline_excluded_from_listing.2.2 31000 [("u1", exStaleUserP3)]
      { exStaleUserP3 with isOnline := false } (by decide)⟩

/-- Counterexample for C5 as stated: part_003's `getUsersFromDB` (the
online-users listing of that variant) RETURNS the user whose `lastSeen` is
31 seconds old instead of excluding it — the record merely carries
`isOnline = false`. -/
theorem c5_stale_user_listed_counterexample :
    (30000 : Int) < 31000 - exStaleUserP3.lastSeen ∧
    P3.getUsersFromDB 31000 [("u1", exStaleUserP3)] =
      [{ exStaleUserP3 with isOnline := false }] := by
  exact ⟨by decide, by decide⟩

/-! ### Degraded reads and failing writes (C6) -/

/-- C6 (amended): a failing read of a not-yet-initialized canvas degrades to
a freshly initialized default in both cited readers (`getCanvas` of
backend.go serves the white canvas; `loadCanvas` of part_005 additionally
saves it); but a storage error during a pixel write does NOT fail the unit
of work: the failing pixel is skipped while the other writes of the same
batch are persisted. -/
theorem c6_read_defaults_write_skips :
    (∀ (room : List Char) (store : List (List Char × List (List String))),
        storeLookup store (B1.canvasKey room) = none →
        B1.getCanvas room store = B1.emptyCanvas) ∧
    (∀ store : List (String × List (List P5.Pixel)),
        storeLookup store "data" = none →
        (P5.loadCanvas false false store).1 = P5.createEmptyCanvas ∧
        storeLookup (P5.loadCanvas false false store).2 "data" =
          some P5.createEmptyCanvas) ∧
    (∀ (putErr : List Char → Bool) (b : P0.PixelBatch) (s : P0.ServerState)
        (p1 p2 : P0.Pixel),
        b.pixels = [p1, p2] → b.room ≠ [] → b.batchId ≠ "" →
        storeLookup s.processedBatchIds b.batchId = none →
        (0 ≤ p1.x ∧ p1.x < P0.CanvasWidth ∧ 0 ≤ p1.y ∧ p1.y < P0.CanvasHeight) →
        (0 ≤ p2.x ∧ p2.x < P0.CanvasWidth ∧ 0 ≤ p2.y ∧ p2.y < P0.CanvasHeight) →
        putErr (P0.pixelKey b.room p1.x p1.y) = false →
        putErr (P0.pixelKey b.room p2.x p2.y) = true →
        P0.pixelKey b.room p2.x p2.y ≠ P0.pixelKey b.room p1.x p1.y →
        storeLookup (P0.onPixelUpdate false putErr b s).canvasStore
            (P0.pixelKey b.room p1.x p1.y) = some p1 ∧
        storeLookup (P0.onPixelUpdate false putErr b s).canvasStore
            (P0.pixelKey b.room p2.x p2.y) =
          storeLookup s.canvasStore (P0.pixelKey b.room p2.x p2.y)) := by
  refine ⟨?_, ?_, ?_⟩
  · intro room store h
    unfold B1.getCanvas
    rw [h]
  · intro store h
    unfold P5.loadCanvas
    rw [h]
    exact ⟨rfl, storeLookup_storePut_self _ _ _⟩
  · intro putErr b s p1 p2 hb hroom hbid hfresh hin1 hin2 hput1 hput2 hkne
    rw [onPixelUpdate_eq]
    have h1 : (P0.isBatchProcessed b.batchId b.timestamp s.processedBatchIds).1
        = false := isBatchProcessed_fresh_fst _ _ _ hfresh
    rw [if_neg (by rw [h1]; simp), if_neg (by simp), if_neg hroom]
    have hw : P0.writePixels putErr b.room b.pixels s.canvasStore =
        storePut s.canvasStore (P0.pixelKey b.room p1.x p1.y) p1 := by
      rw [hb]
      simp [P0.writePixels, hin1, hin2, hput1, hput2]
    show storeLookup (P0.writePixels putErr b.room b.pixels s.canvasStore)
          (P0.pixelKey b.room p1.x p1.y) = some p1 ∧
        storeLookup (P0.writePixels putErr b.room b.pixels s.canvasStore)
          (P0.pixelKey b.room p2.x p2.y) =
          storeLookup s.canvasStore (P0.pixelKey b.room p2.x p2.y)
    rw [hw]
    exact ⟨storeLookup_storePut_self _ _ _,
      storeLookup_storePut_other _ _ _ _ hkne⟩

/-- Witness for C6 at concrete inputs: an uninitialized read serves the
default, and the two-pixel batch with a put failing on cell (1,1) persists
cell (0,0) anyway. -/
theorem c6_read_defaults_write_skips_witness :
    B1.getCanvas "r".toList [] = B1.emptyCanvas ∧
    (P5.loadCanvas false false []).1 = P5.createEmptyCanvas ∧
    storeLookup (P0.onPixelUpdate false failPutAt11 exTwoPixBatch emptyState).canvasStore
        (P0.pixelKey "r".toList 0 0) = some exPixelA ∧
    storeLookup (P0.onPixelUpdate false failPutAt11 exTwoPixBatch emptyState).canvasStore
        (P0.pixelKey "r".toList 1 1) =
      storeLookup emptyState.canvasStore (P0.pixelKey "r".toList 1 1) :=
  ⟨c6_read_defaults_write_skips.1 "r".toList [] rfl,
   (c6_read_defaults_write_skips.2.1 [] rfl).1,
   (c6_read_defaults_write_skips.2.2 failPutAt11 exTwoPixBatch emptyState
      exPixelA exPixelB rfl (by decide) (by decide) rfl (by decide) (by decide)
      (by decide) (by decide) (by decide)).1,
   (c6_read_defaults_write_skips.2.2 failPutAt11 exTwoPixBatch emptyState
      exPixelA exPixelB rfl (by decide) (by decide) rfl (by decide) (by decide)
      (by decide) (by decide) (by decide)).2⟩

/-- Counterexample for C6 as stated: with the put of cell (1,1) failing, the
unit of work still persists cell (0,0) — a storage error during a write does
not leave the store unmutated (and the handler reports success). -/
theorem c6_partial_mutation_counterexample :
    storeLookup (P0.onPixelUpdate false failPutAt11 exTwoPixBatch emptyState).canvasStore
        (P0.pixelKey "r".toList 0 0) = some exPixelA ∧
    storeLookup (P0.onPixelUpdate false failPutAt11 exTwoPixBatch emptyState).canvasStore
        (P0.pixelKey "r".toList 1 1) = none ∧
    (P0.onPixelUpdate false failPutAt11 exTwoPixBatch emptyState).canvasStore ≠
      emptyState.canvasStore := by
  refine ⟨?_, ?_, ?_⟩ <;> decide

/-! ### Chat sanitization (C7) -/

theorem removeAllCore_length_le (p : Char) (pr : List Char) :
    ∀ (fuel : Nat) (s : List Char),
      (removeAllCore p pr fuel s).length ≤ s.length := by
  intro fuel
  induction fuel with
  | zero =>
      intro s
      cases s <;> simp [removeAllCore]
  | succ n ih =>
      intro s
      cases s with
      | nil => simp [removeAllCore]
      | cons c cs =>
          rw [show removeAllCore p pr (n + 1) (c :: cs) =
              (if (p :: pr).isPrefixOf (c :: cs) then
                removeAllCore p pr n (cs.drop pr.length)
              else c :: removeAllCore p pr n cs) from rfl]
          split
          · have h1 := ih (cs.drop pr.length)
            have h2 : (cs.drop pr.length).length = cs.length - pr.length :=
              List.length_drop _ _
            simp only [List.length_cons]
            omega
          · have h1 := ih cs
            simp only [List.length_cons]
            omega

theorem removeAll_length_le (pat s : List Char) :
    (removeAll pat s).length ≤ s.length := by
  cases pat with
  | nil => simp [removeAll]
  | cons p pr => exact removeAllCore_length_le p pr s.length s

theorem dropWhile_length_le (q : Char → Bool) (l : List Char) :
    (l.dropWhile q).length ≤ l.length := by
  induction l with
  | nil => simp
  | cons c cs ih =>
      rw [List.dropWhile_cons]
      split
      · simp only [List.length_cons]
        omega
      · simp

theorem trimSpace_length_le (s : List Char) : (trimSpace s).length ≤ s.length := by
  unfold trimSpace
  calc ((s.dropWhile isSpaceChar).reverse.dropWhile isSpaceChar).reverse.length
      = ((s.dropWhile isSpaceChar).reverse.dropWhile isSpaceChar).length := by
        rw [List.length_reverse]
    _ ≤ (s.dropWhile isSpaceChar).reverse.length := dropWhile_length_le _ _
    _ = (s.dropWhile isSpaceChar).length := by rw [List.length_reverse]
    _ ≤ s.length := dropWhile_length_le _ _

theorem truncate500_length_le (l : List Char) :
    (if l.length > 500 then l.take 500 else l).length ≤ 500 := by
  by_cases h : l.length > 500
  · rw [if_pos h]
    simp [List.length_take]
  · rw [if_neg h]
    omega

/-- C7 (amended): the stored chat body is at most 500 characters long in
both sanitizers.  (Freedom from the denylisted substrings does NOT hold:
each substring is removed in a single pass, which can splice a new
occurrence together — see the counterexample.) -/
theorem c7_sanitized_length_le_500 (m : List Char) :
    (P2.sanitizeMessage m).length ≤ 500 ∧ (B3.sanitizeMessage m).length ≤ 500 := by
  constructor
  · simp only [P2.sanitizeMessage]
    exact le_trans (trimSpace_length_le _) (truncate500_length_le _)
  · simp only [B3.sanitizeMessage]
    exact le_trans (removeAll_length_le _ _)
      (le_trans (removeAll_length_le _ _)
        (le_trans (removeAll_length_le _ _) (truncate500_length_le _)))

/-- Counterexample for C7 as stated: the single-pass removal reassembles
`<script` out of `<scr<scriptipt` in both sanitizers, and the backend.go
sanitizer does not strip inline-handler attribute names at all. -/
theorem c7_denylist_recreated_counterexample :
    ("<script".toList <:+: P2.sanitizeMessage "<scr<scriptipt".toList) ∧
    ("<script".toList <:+: B3.sanitizeMessage "<scr<scriptipt".toList) ∧
    B3.sanitizeMessage "onload=alert(1)".toList = "onload=alert(1)".toList := by
  refine ⟨?_, ?_, ?_⟩ <;> decide

/-! ### Chat persistence keys (C8) -/

theorem isMessageProcessed_fresh_fst (t : String) (ts : Int)
    (m : List (String × Int)) (h : storeLookup m t = none) :
    (P0.isMessageProcessed t ts m).1 = false := by
  by_cases he : t = ""
  · subst he
    simp [P0.isMessageProcessed]
  · unfold P0.isMessageProcessed
    rw [if_neg he, h]
    split
    · rename_i hc
      simp at hc
    · show (if ((t, ts) :: m).length > P0.MAX_PROCESSED_MESSAGES then
          (false, ((t, ts) :: m).drop 200) else (false, (t, ts) :: m)).1 = false
      split <;> rfl

/-- Branch-level restatement of `onChatMessages` (pure unfolding). -/
theorem onChatMessages_eq (dbFail putErr : Bool) (nn nu : Int)
    (msg : P0.ChatIncoming) (s : P0.ServerState) :
    P0.onChatMessages dbFail putErr nn nu msg s =
      (if (P0.isMessageProcessed msg.messageId msg.timestamp
            s.processedMessageIds).1 = true
       then { s with processedMessageIds :=
            (P0.isMessageProcessed msg.messageId msg.timestamp
              s.processedMessageIds).2 }
       else if dbFail = true
       then { s with processedMessageIds :=
            (P0.isMessageProcessed msg.messageId msg.timestamp
              s.processedMessageIds).2 }
       else if putErr = true
       then { s with processedMessageIds :=
            (P0.isMessageProcessed msg.messageId msg.timestamp
              s.processedMessageIds).2 }
       else { s with
              processedMessageIds :=
                (P0.isMessageProcessed msg.messageId msg.timestamp
                  s.processedMessageIds).2,
              chatStore :=
                storePut s.chatStore
                  (P0.chatKey (if msg.room = [] then "default".toList else msg.room)
                    (if msg.timestamp = 0 then nu else msg.timestamp))
                  (P0.ChatMessage.mk
                    (if msg.messageId = "" then (intRepr nn).asString
                     else msg.messageId)
                    msg.userId msg.username msg.message
                    (if msg.timestamp = 0 then nu else msg.timestamp)) }) := rfl

/-- C8 (amended): appending a chat message persists it under the per-room,
per-TIMESTAMP key `/<room>/<timestamp>` and leaves every other key of the
chat namespace untouched; hence appends with distinct timestamps never
overwrite each other, but two messages sharing room and timestamp share one
key even when their ids differ (see the counterexample). -/
theorem c8_chat_append_frame (nn nu : Int) (msg : P0.ChatIncoming)
    (s : P0.ServerState) (hmid : msg.messageId ≠ "")
    (hfresh : storeLookup s.processedMessageIds msg.messageId = none)
    (hts : msg.timestamp ≠ 0) (hroom : msg.room ≠ []) :
    storeLookup (P0.onChatMessages false false nn nu msg s).chatStore
        (P0.chatKey msg.room msg.timestamp) =
      some (P0.ChatMessage.mk msg.messageId msg.userId msg.username msg.message
        msg.timestamp) ∧
    ∀ k : List Char, k ≠ P0.chatKey msg.room msg.timestamp →
      storeLookup (P0.onChatMessages false false nn nu msg s).chatStore k =
        storeLookup s.chatStore k := by
  rw [onChatMessages_eq]
  have h1 : (P0.isMessageProcessed msg.messageId msg.timestamp
      s.processedMessageIds).1 = false := isMessageProcessed_fresh_fst _ _ _ hfresh
  rw [if_neg (by rw [h1]; simp), if_neg (by simp), if_neg (by simp),
    if_neg hroom, if_neg hts, if_neg hmid]
  exact ⟨storeLookup_storePut_self _ _ _,
    fun k hk => storeLookup_storePut_other _ _ _ _ hk⟩

/-- Witness for C8 at concrete inputs. -/
theorem c8_chat_append_frame_witness :
    storeLookup (P0.onChatMessages false false 0 0 exChatMsg1 emptyState).chatStore
        (P0.chatKey "r".toList 5) =
      some (P0.ChatMessage.mk "m1" "u1" "alice" "hello" 5) ∧
    storeLookup (P0.onChatMessages false false 0 0 exChatMsg1 emptyState).chatStore
        "/r/6".toList = storeLookup emptyState.chatStore "/r/6".toList :=
  ⟨(c8_chat_append_frame 0 0 exChatMsg1 emptyState (by decide) rfl (by decide)
      (by decide)).1,
   (c8_chat_append_frame 0 0 exChatMsg1 emptyState (by decide) rfl (by decide)
      (by decide)).2 "/r/6".toList (by decide)⟩

/-- Counterexample for C8 as stated: two messages with DISTINCT ids but the
same room and timestamp are stored under the same key `/r/5`; after the
second append the store holds a single record — the second message — so the
first persisted message was overwritten and removed. -/
theorem c8_equal_timestamp_overwrite_counterexample :
    exChatMsg1.messageId ≠ exChatMsg2.messageId ∧
    storeLookup exChatState2.chatStore (P0.chatKey "r".toList 5) =
      some (P0.ChatMessage.mk "m2" "u2" "bob" "world" 5) ∧
    exChatState2.chatStore.length = 1 := by
  refine ⟨?_, ?_, ?_⟩ <;> decide

/-! ### The double-loop sort of getMessages (C4) -/

theorem lt_of_getq_some {α : Type} (l : List α) (n : Nat) (a : α)
    (h : l[n]? = some a) : n < l.length := by
  by_contra hn
  rw [List.getElem?_eq_none (Nat.le_of_not_lt hn)] at h
  cases h

theorem tsLeAt_of_eq {l l' : List P0.ChatMessage} {p q : Nat}
    (hp : l'[p]? = l[p]?) (hq : l'[q]? = l[q]?) (h : tsLeAt l p q) :
    tsLeAt l' p q := by
  intro a b ha hb
  exact h a b (hp ▸ ha) (hq ▸ hb)

theorem sortStep_eq_cases (l : List P0.ChatMessage) (i j : Nat) :
    (∀ a b, l[i]? = some a → l[j]? = some b →
      P0.sortStep l i j =
        if a.timestamp > b.timestamp then (l.set i b).set j a else l) ∧
    (l[i]? = none → P0.sortStep l i j = l) ∧
    (l[j]? = none → P0.sortStep l i j = l) := by
  refine ⟨?_, ?_, ?_⟩
  · intro a b ha hb
    unfold P0.sortStep
    rw [ha, hb]
  · intro h
    unfold P0.sortStep
    rw [h]
  · intro h
    unfold P0.sortStep
    rw [h]
    cases l[i]? <;> rfl

theorem length_sortStep (l : List P0.ChatMessage) (i j : Nat) :
    (P0.sortStep l i j).length = l.length := by
  cases hi : l[i]? with
  | none => rw [(sortStep_eq_cases l i j).2.1 hi]
  | some av =>
      cases hj : l[j]? with
      | none => rw [(sortStep_eq_cases l i j).2.2 hj]
      | some bv =>
          rw [(sortStep_eq_cases l i j).1 av bv hi hj]
          split <;> simp [List.length_set]

theorem sortStep_get_other (l : List P0.ChatMessage) (i j k : Nat)
    (hk1 : k ≠ i) (hk2 : k ≠ j) : (P0.sortStep l i j)[k]? = l[k]? := by
  cases hi : l[i]? with
  | none => rw [(sortStep_eq_cases l i j).2.1 hi]
  | some av =>
      cases hj : l[j]? with
      | none => rw [(sortStep_eq_cases l i j).2.2 hj]
      | some bv =>
          rw [(sortStep_eq_cases l i j).1 av bv hi hj]
          split
          · rw [List.getElem?_set_ne (Ne.symm hk2), List.getElem?_set_ne (Ne.symm hk1)]
          · rfl

theorem sortStep_establishes (l : List P0.ChatMessage) (i j : Nat)
    (hij : i ≠ j) : tsLeAt (P0.sortStep l i j) i j := by
  cases hi : l[i]? with
  | none =>
      rw [(sortStep_eq_cases l i j).2.1 hi]
      intro a b ha hb
      rw [hi] at ha
      cases ha
  | some av =>
      cases hj : l[j]? with
      | none =>
          rw [(sortStep_eq_cases l i j).2.2 hj]
          intro a b ha hb
          rw [hj] at hb
          cases hb
      | some bv =>
          rw [(sortStep_eq_cases l i j).1 av bv hi hj]
          by_cases hcmp : av.timestamp > bv.timestamp
          · rw [if_pos hcmp]
            intro a b ha hb
            have hilen := lt_of_getq_some l i av hi
            have hjlen := lt_of_getq_some l j bv hj
            rw [List.getElem?_set_ne (Ne.symm hij),
              List.getElem?_set_self hilen] at ha
            rw [List.getElem?_set_self (by rw [List.length_set]; exact hjlen)] at hb
            injection ha with ha'
            injection hb with hb'
            rw [← ha', ← hb']
            exact le_of_lt hcmp
          · rw [if_neg hcmp]
            intro a b ha hb
            rw [hi] at ha
            rw [hj] at hb
            injection ha with ha'
            injection hb with hb'
            rw [← ha', ← hb']
            exact le_of_not_lt hcmp

theorem sortStep_get_i_le (l : List P0.ChatMessage) (i j : Nat) (a' : P0.ChatMessage)
    (h : (P0.sortStep l i j)[i]? = some a') :
    ∃ a, l[i]? = some a ∧ a'.timestamp ≤ a.timestamp := by
  cases hi : l[i]? with
  | none =>
      rw [(sortStep_eq_cases l i j).2.1 hi] at h
      rw [hi] at h
      cases h
  | some av =>
      cases hj : l[j]? with
      | none =>
          rw [(sortStep_eq_cases l i j).2.2 hj] at h
          rw [hi] at h
          exact ⟨a', h, le_refl _⟩
      | some bv =>
          rw [(sortStep_eq_cases l i j).1 av bv hi hj] at h
          by_cases hcmp : av.timestamp > bv.timestamp
          · rw [if_pos hcmp] at h
            have hij : i ≠ j := by
              intro hh
              subst hh
              rw [hi] at hj
              injection hj with hj'
              rw [hj'] at hcmp
              exact absurd hcmp (lt_irrefl _)
            have hilen := lt_of_getq_some l i av hi
            rw [List.getElem?_set_ne (Ne.symm hij),
              List.getElem?_set_self hilen] at h
            injection h with h'
            refine ⟨av, rfl, ?_⟩
            rw [← h']
            exact le_of_lt hcmp
          · rw [if_neg hcmp] at h
            rw [hi] at h
            exact ⟨a', h, le_refl _⟩

theorem sortStep_preserves_dom (l : List P0.ChatMessage) (i j p : Nat)
    (hpi : p ≠ i) (hpj : p ≠ j) (h1 : tsLeAt l p i) (h2 : tsLeAt l p j) :
    tsLeAt (P0.sortStep l i j) p i ∧ tsLeAt (P0.sortStep l i j) p j := by
  cases hi : l[i]? with
  | none =>
      rw [(sortStep_eq_cases l i j).2.1 hi]
      exact ⟨h1, h2⟩
  | some av =>
      cases hj : l[j]? with
      | none =>
          rw [(sortStep_eq_cases l i j).2.2 hj]
          exact ⟨h1, h2⟩
      | some bv =>
          rw [(sortStep_eq_cases l i j).1 av bv hi hj]
          by_cases hcmp : av.timestamp > bv.timestamp
          · rw [if_pos hcmp]
            have hij : i ≠ j := by
              intro hh
              subst hh
              rw [hi] at hj
              injection hj with hj'
              rw [hj'] at hcmp
              exact absurd hcmp (lt_irrefl _)
            have hilen := lt_of_getq_some l i av hi
            have hjlen := lt_of_getq_some l j bv hj
            have hpget : ((l.set i bv).set j av)[p]? = l[p]? := by
              rw [List.getElem?_set_ne (Ne.symm hpj), List.getElem?_set_ne (Ne.symm hpi)]
            constructor
            · intro a b ha hb
              rw [hpget] at ha
              rw [List.getElem?_set_ne (Ne.symm hij),
                List.getElem?_set_self hilen] at hb
              injection hb with hb'
              rw [← hb']
              exact h2 a bv ha hj
            · intro a b ha hb
              rw [hpget] at ha
              rw [List.getElem?_set_self (by rw [List.length_set]; exact hjlen)] at hb
              injection hb with hb'
              rw [← hb']
              exact h1 a av ha hi
          · rw [if_neg hcmp]
            exact ⟨h1, h2⟩

theorem innerFold_spec (i : Nat) :
    ∀ js : List Nat, i ∉ js → js.Nodup →
    ∀ l : List P0.ChatMessage,
      ((js.foldl (fun acc j => P0.sortStep acc i j) l).length = l.length) ∧
      (∀ k, k ≠ i → k ∉ js →
        (js.foldl (fun acc j => P0.sortStep acc i j) l)[k]? = l[k]?) ∧
      (∀ a', (js.foldl (fun acc j => P0.sortStep acc i j) l)[i]? = some a' →
        ∃ a, l[i]? = some a ∧ a'.timestamp ≤ a.timestamp) ∧
      (∀ j ∈ js, tsLeAt (js.foldl (fun acc j => P0.sortStep acc i j) l) i j) ∧
      (∀ p, p ≠ i → p ∉ js → tsLeAt l p i → (∀ j ∈ js, tsLeAt l p j) →
        tsLeAt (js.foldl (fun acc j => P0.sortStep acc i j) l) p i ∧
        ∀ j ∈ js, tsLeAt (js.foldl (fun acc j => P0.sortStep acc i j) l) p j) := by
  intro js
  induction js with
  | nil =>
      intro _ _ l
      refine ⟨rfl, fun k _ _ => rfl, fun a' h => ⟨a', h, le_refl _⟩, by simp,
        fun p _ _ h1 h2 => ⟨h1, by simp⟩⟩
  | cons j rest ih =>
      intro hni hnd l
      have hij : i ≠ j := fun h => hni (h ▸ List.mem_cons_self j rest)
      have hirest : i ∉ rest := fun h => hni (List.mem_cons_of_mem j h)
      have hjrest : j ∉ rest := (List.nodup_cons.1 hnd).1
      have hndrest : rest.Nodup := (List.nodup_cons.1 hnd).2
      have hfold : (j :: rest).foldl (fun acc j => P0.sortStep acc i j) l =
          rest.foldl (fun acc j => P0.sortStep acc i j) (P0.sortStep l i j) := rfl
      obtain ⟨ihA, ihB, ihD, ihC, ihE⟩ := ih hirest hndrest (P0.sortStep l i j)
      rw [hfold]
      refine ⟨?_, ?_, ?_, ?_, ?_⟩
      · exact ihA.trans (length_sortStep l i j)
      · intro k hk1 hk2
        have hkj : k ≠ j := fun h => hk2 (h ▸ List.mem_cons_self j rest)
        have hkrest : k ∉ rest := fun h => hk2 (List.mem_cons_of_mem j h)
        rw [ihB k hk1 hkrest]
        exact sortStep_get_other l i j k hk1 hkj
      · intro a' h
        obtain ⟨a1, h1, hle1⟩ := ihD a' h
        obtain ⟨a, ha, hle2⟩ := sortStep_get_i_le l i j a1 h1
        exact ⟨a, ha, hle1.trans hle2⟩
      · intro j' hj'
        rcases List.mem_cons.1 hj' with rfl | hmem
        · intro a b ha hb
          have hbj : (P0.sortStep l i j')[j']? = some b := by
            rw [← ihB j' (Ne.symm hij) hjrest]
            exact hb
          obtain ⟨a1, ha1, hle⟩ := ihD a ha
          exact hle.trans (sortStep_establishes l i j' hij a1 b ha1 hbj)
        · exact ihC j' hmem
      · intro p hp1 hp2 hpi hpall
        have hpj : p ≠ j := fun h => hp2 (h ▸ List.mem_cons_self j rest)
        have hprest : p ∉ rest := fun h => hp2 (List.mem_cons_of_mem j h)
        obtain ⟨hs1, hs2⟩ := sortStep_preserves_dom l i j p hp1 hpj hpi
          (hpall j (List.mem_cons_self j rest))
        have hrest1 : ∀ j'' ∈ rest, tsLeAt (P0.sortStep l i j) p j'' := by
          intro j'' hmem
          have hj''i : j'' ≠ i := fun h => hirest (h ▸ hmem)
          have hj''j : j'' ≠ j := fun h => hjrest (h ▸ hmem)
          exact tsLeAt_of_eq (sortStep_get_other l i j p hp1 hpj)
            (sortStep_get_other l i j j'' hj''i hj''j)
            (hpall j'' (List.mem_cons_of_mem j hmem))
        obtain ⟨hEi, hErest⟩ := ihE p hp1 hprest hs1 hrest1
        refine ⟨hEi, ?_⟩
        intro j' hj'
        rcases List.mem_cons.1 hj' with rfl | hmem
        · exact tsLeAt_of_eq (ihB p hp1 hprest) (ihB j' (Ne.symm hij) hjrest) hs2
        · exact hErest j' hmem

theorem innerLoop_spec (l : List P0.ChatMessage) (i : Nat) (h : SortedUpTo l i) :
    (P0.innerLoop l i).length = l.length ∧ SortedUpTo (P0.innerLoop l i) (i + 1) := by
  have hni : i ∉ List.range' (i + 1) (l.length - (i + 1)) := by
    intro hmem
    rcases List.mem_range'.1 hmem with ⟨k, hk, heq⟩
    omega
  have hnd := List.nodup_range' (i + 1) (l.length - (i + 1))
  obtain ⟨hA, hB, hD, hC, hE⟩ :=
    innerFold_spec i (List.range' (i + 1) (l.length - (i + 1))) hni hnd l
  unfold P0.innerLoop
  refine ⟨hA, ?_⟩
  intro p q hpq hpi1
  by_cases hpi : p < i
  · have hpne : p ≠ i := Nat.ne_of_lt hpi
    have hpnotin : p ∉ List.range' (i + 1) (l.length - (i + 1)) := by
      intro hmem
      rcases List.mem_range'.1 hmem with ⟨k, hk, heq⟩
      omega
    by_cases hq : q = i ∨ q ∈ List.range' (i + 1) (l.length - (i + 1))
    · have hpil : tsLeAt l p i := h p i hpi hpi
      have hpall : ∀ j ∈ List.range' (i + 1) (l.length - (i + 1)), tsLeAt l p j := by
        intro j hj
        rcases List.mem_range'.1 hj with ⟨k, hk, heq⟩
        exact h p j (by omega) hpi
      obtain ⟨hEi, hEall⟩ := hE p hpne hpnotin hpil hpall
      rcases hq with rfl | hqmem
      · exact hEi
      · exact hEall q hqmem
    · push_neg at hq
      obtain ⟨hq1, hq2⟩ := hq
      exact tsLeAt_of_eq (hB p hpne hpnotin) (hB q hq1 hq2) (h p q hpq hpi)
  · have hpieq : p = i := by omega
    subst hpieq
    by_cases hql : q < l.length
    · have hqmem : q ∈ List.range' (p + 1) (l.length - (p + 1)) := by
        rw [List.mem_range']
        exact ⟨q - (p + 1), by omega, by omega⟩
      exact hC q hqmem
    · intro a b ha hb
      rw [List.getElem?_eq_none (by rw [hA]; omega)] at hb
      cases hb

theorem outerFold_spec : ∀ (cnt a : Nat) (l : List P0.ChatMessage),
    SortedUpTo l a →
    ((List.range' a cnt).foldl P0.innerLoop l).length = l.length ∧
    SortedUpTo ((List.range' a cnt).foldl P0.innerLoop l) (a + cnt) := by
  intro cnt
  induction cnt with
  | zero =>
      intro a l h
      exact ⟨rfl, by simpa using h⟩
  | succ n ih =>
      intro a l h
      rw [List.range'_succ, List.foldl_cons]
      obtain ⟨h1len, h1sorted⟩ := innerLoop_spec l a h
      obtain ⟨h2len, h2sorted⟩ := ih (a + 1) (P0.innerLoop l a) h1sorted
      refine ⟨h2len.trans h1len, ?_⟩
      have harith : a + (n + 1) = (a + 1) + n := by omega
      rw [harith]
      exact h2sorted

theorem exchangeSort_spec (l : List P0.ChatMessage) :
    (P0.exchangeSort l).length = l.length ∧
    (P0.exchangeSort l).Pairwise (fun a b => a.timestamp ≤ b.timestamp) := by
  unfold P0.exchangeSort
  rw [List.range_eq_range']
  have h0 : SortedUpTo l 0 := fun p q hpq hp => absurd hp (Nat.not_lt_zero p)
  obtain ⟨hlen, hsort⟩ := outerFold_spec l.length 0 l h0
  refine ⟨hlen, ?_⟩
  rw [List.pairwise_iff_getElem]
  intro a b ha hb hab
  have hbl : b < l.length := by rw [← hlen]; exact hb
  exact hsort a b hab (by omega) _ _ (List.getElem?_eq_getElem ha)
    (List.getElem?_eq_getElem hb)

/-- C4 (amended): for every room and chat store, part_000 `getMessages`
returns at most 100 messages, sorted ascending (oldest first) by timestamp.
(The tie-breaking clause of the claim fails: the double-loop exchange sort
is not stable — see the counterexample.) -/
theorem c4_messages_sorted_capped (room : List Char)
    (chatStore : List (List Char × P0.ChatMessage)) :
    (P0.getMessages room chatStore).length ≤ 100 ∧
    (P0.getMessages room chatStore).Pairwise
      (fun a b => a.timestamp ≤ b.timestamp) := by
  obtain ⟨hlen, hsort⟩ := exchangeSort_spec (P0.collectMessages room chatStore)
  simp only [P0.getMessages]
  by_cases h : (P0.exchangeSort (P0.collectMessages room chatStore)).length > 100
  · rw [if_pos h]
    constructor
    · rw [List.length_drop]
      omega
    · exact List.Pairwise.sublist (List.drop_sublist _ _) hsort
  · rw [if_neg h]
    exact ⟨by omega, hsort⟩

/-- Counterexample for C4 as stated: the chat store lists the key of message
`m1` before the key of `m2`, both records carry timestamp 5, yet the result
returns `m2` before `m1` — equal-timestamp messages are NOT kept in
arrival/key order (the exchange sort swaps across ties). -/
theorem c4_tie_order_counterexample :
    P0.getMessages "r".toList tieChatStore =
      [P0.ChatMessage.mk "m3" "" "" "" 4, P0.ChatMessage.mk "m2" "" "" "" 5,
       P0.ChatMessage.mk "m1" "" "" "" 5] := by
  decide

/-! ### The canvas projection (C1) -/

set_option maxRecDepth 40000 in
set_option maxHeartbeats 2000000 in
theorem parseCoord_natRepr : ∀ x : Nat, x < 90 → ∀ y : Nat, y < 90 →
    parseCoord (natRepr x ++ ':' :: natRepr y) = some ((x : Int), (y : Int)) := by
  decide

theorem natRepr_tail_len (x y : Nat) :
    0 < (natRepr x ++ ':' :: natRepr y).length := by
  simp [List.length_append]

theorem pixelKeyN_eq_pfx_append (room : List Char) (x y : Nat) :
    P0.pixelKeyN room x y = P0.roomPfx room ++ (natRepr x ++ ':' :: natRepr y) := by
  unfold P0.pixelKeyN P0.roomPfx
  simp

theorem pfx_isPrefixOf_pixelKeyN (room : List Char) (x y : Nat) :
    (P0.roomPfx room).isPrefixOf (P0.pixelKeyN room x y) = true := by
  rw [List.isPrefixOf_iff_prefix, pixelKeyN_eq_pfx_append]
  exact List.prefix_append _ _

theorem pixelKeyN_len_gt (room : List Char) (x y : Nat) :
    (P0.roomPfx room).length < (P0.pixelKeyN room x y).length := by
  rw [pixelKeyN_eq_pfx_append, List.length_append]
  have := natRepr_tail_len x y
  omega

theorem slashfree_prefix_eq : ∀ a : List Char, '/' ∉ a → ∀ b : List Char,
    '/' ∉ b → ∀ t : List Char, (a ++ ['/']) <+: (b ++ '/' :: t) → a = b := by
  intro a
  induction a with
  | nil =>
      intro _ b hb t hpre
      cases b with
      | nil => rfl
      | cons c bs =>
          rw [List.nil_append, List.cons_append] at hpre
          obtain ⟨hc, _⟩ := List.cons_prefix_cons.1 hpre
          exact absurd (hc ▸ List.mem_cons_self c bs) hb
  | cons c as iha =>
      intro ha b hb t hpre
      cases b with
      | nil =>
          rw [List.cons_append, List.nil_append] at hpre
          obtain ⟨hc, _⟩ := List.cons_prefix_cons.1 hpre
          exact absurd (hc ▸ List.mem_cons_self c as) ha
      | cons d bs =>
          rw [List.cons_append, List.cons_append] at hpre
          obtain ⟨hcd, hpre2⟩ := List.cons_prefix_cons.1 hpre
          have ha2 : '/' ∉ as := fun h => ha (List.mem_cons_of_mem c h)
          have hb2 : '/' ∉ bs := fun h => hb (List.mem_cons_of_mem d h)
          rw [hcd, iha ha2 bs hb2 t hpre2]

theorem prefix_forces_room (room r : List Char) (x y : Nat)
    (hroom : RoomOk room) (hr : RoomOk r)
    (hpre : (P0.roomPfx room).isPrefixOf (P0.pixelKeyN r x y) = true) : r = room := by
  rw [List.isPrefixOf_iff_prefix, pixelKeyN_eq_pfx_append] at hpre
  unfold P0.roomPfx at hpre
  rw [List.cons_append] at hpre
  obtain ⟨_, hpre2⟩ := List.cons_prefix_cons.1 hpre
  have : room ++ ['/'] <+: r ++ '/' :: (natRepr x ++ ':' :: natRepr y) := by
    simpa using hpre2
  exact (slashfree_prefix_eq room hroom.2 r hr.2 _ this).symm

theorem pixelKeyN_cell_inj (room : List Char) (x y x' y' : Nat)
    (hx : x < 90) (hy : y < 90) (hx' : x' < 90) (hy' : y' < 90)
    (h : P0.pixelKeyN room x' y' = P0.pixelKeyN room x y) : x' = x ∧ y' = y := by
  have htails : natRepr x' ++ ':' :: natRepr y' = natRepr x ++ ':' :: natRepr y := by
    have h2 := congrArg (fun k => k.drop (P0.roomPfx room).length) h
    simp only [pixelKeyN_eq_pfx_append, List.drop_left] at h2
    exact h2
  have h1 := parseCoord_natRepr x' hx' y' hy'
  have h2 := parseCoord_natRepr x hx y hy
  rw [htails, h2] at h1
  injection h1 with h3
  constructor
  · have := congrArg Prod.fst h3
    simp at this
    omega
  · have := congrArg Prod.snd h3
    simp at this
    omega

theorem goodGrid_emptyGrid : GoodGrid P0.emptyGrid := by
  constructor
  · simp [P0.emptyGrid]
  · intro row hrow
    unfold P0.emptyGrid at hrow
    rw [List.eq_of_mem_replicate hrow]
    simp

theorem goodGrid_setCell (g : List (List String)) (hg : GoodGrid g)
    (x y : Nat) (hy : y < 90) (c : String) : GoodGrid (P0.setCell g x y c) := by
  obtain ⟨hlen, hrows⟩ := hg
  constructor
  · unfold P0.setCell
    rw [List.length_set]
    exact hlen
  · intro row hrow
    unfold P0.setCell at hrow
    rcases List.mem_or_eq_of_mem_set hrow with hmem | heq
    · exact hrows row hmem
    · rw [heq, List.length_set, List.getD_eq_getElem?_getD]
      have hylt : y < g.length := by omega
      rw [List.getElem?_eq_getElem hylt]
      exact hrows _ (List.getElem_mem hylt)

theorem cellAt_setCell_self (g : List (List String)) (hg : GoodGrid g)
    (x y : Nat) (hx : x < 90) (hy : y < 90) (c : String) :
    P0.cellAt (P0.setCell g x y c) x y = some c := by
  obtain ⟨hlen, hrows⟩ := hg
  have hylt : y < g.length := by omega
  unfold P0.cellAt P0.setCell
  rw [List.getElem?_set_self hylt]
  show ((g.getD y []).set x c)[x]? = some c
  rw [List.getD_eq_getElem?_getD, List.getElem?_eq_getElem hylt]
  show ((g[y]).set x c)[x]? = some c
  have hxlt : x < (g[y]).length := by
    rw [hrows _ (List.getElem_mem hylt)]
    omega
  rw [List.getElem?_set_self hxlt]

theorem cellAt_setCell_other (g : List (List String)) (x y x' y' : Nat)
    (c : String) (hne : (x', y') ≠ (x, y)) :
    P0.cellAt (P0.setCell g x y c) x' y' = P0.cellAt g x' y' := by
  by_cases hyy : y' = y
  · subst hyy
    have hxx : x' ≠ x := by
      intro h
      exact hne (by rw [h])
    unfold P0.cellAt P0.setCell
    rw [List.getElem?_set]
    by_cases hylt : y' < g.length
    · rw [if_pos rfl, if_pos hylt]
      rw [List.getElem?_eq_getElem hylt]
      show ((g.getD y' []).set x c)[x']? = _
      rw [List.getD_eq_getElem?_getD, List.getElem?_eq_getElem hylt]
      show ((g[y']).set x c)[x']? = _
      rw [List.getElem?_set_ne (fun h => hxx h.symm)]
      rfl
    · rw [if_pos rfl, if_neg hylt]
      rw [List.getElem?_eq_none (Nat.le_of_not_lt hylt)]
  · unfold P0.cellAt P0.setCell
    rw [List.getElem?_set_ne (fun h => hyy h.symm)]

theorem applyKey_canon (store : List (List Char × P0.Pixel)) (room : List Char)
    (g : List (List String)) (x y : Nat) (hx : x < 90) (hy : y < 90) :
    P0.applyKey store room g (P0.pixelKeyN room x y) =
      (match storeLookup store (P0.pixelKeyN room x y) with
       | some px => P0.setCell g x y px.color
       | none => g) := by
  unfold P0.applyKey
  rw [if_pos (pixelKeyN_len_gt room x y)]
  rw [show (P0.pixelKeyN room x y).drop (P0.roomPfx room).length =
      natRepr x ++ ':' :: natRepr y from by
    rw [pixelKeyN_eq_pfx_append, List.drop_left]]
  rw [parseCoord_natRepr x hx y hy]
  show (if 0 ≤ (x : Int) ∧ (x : Int) < P0.CanvasWidth ∧
        0 ≤ (y : Int) ∧ (y : Int) < P0.CanvasHeight then
      (match storeLookup store (P0.pixelKeyN room x y) with
       | some px => P0.setCell g (x : Int).toNat (y : Int).toNat px.color
       | none => g)
    else g) = _
  rw [if_pos (by
    refine ⟨by omega, ?_, by omega, ?_⟩ <;>
      simp only [P0.CanvasWidth, P0.CanvasHeight] <;> omega)]
  cases hlk : storeLookup store (P0.pixelKeyN room x y) with
  | some px => simp
  | none => rfl

theorem goodGrid_applyKey (store : List (List Char × P0.Pixel))
    (room : List Char) (g : List (List String)) (k : List Char)
    (hg : GoodGrid g) : GoodGrid (P0.applyKey store room g k) := by
  show GoodGrid (
    if (P0.roomPfx room).length < k.length then
      match parseCoord (k.drop (P0.roomPfx room).length) with
      | some (x, y) =>
          if 0 ≤ x ∧ x < P0.CanvasWidth ∧ 0 ≤ y ∧ y < P0.CanvasHeight then
            match storeLookup store k with
            | some px => P0.setCell g x.toNat y.toNat px.color
            | none => g
          else g
      | none => g
    else g)
  by_cases hlen : (P0.roomPfx room).length < k.length
  · rw [if_pos hlen]
    cases hpc : parseCoord (k.drop (P0.roomPfx room).length) with
    | none => exact hg
    | some xy =>
        obtain ⟨x, y⟩ := xy
        show GoodGrid (
          if 0 ≤ x ∧ x < P0.CanvasWidth ∧ 0 ≤ y ∧ y < P0.CanvasHeight then
            match storeLookup store k with
            | some px => P0.setCell g x.toNat y.toNat px.color
            | none => g
          else g)
        by_cases hb : 0 ≤ x ∧ x < P0.CanvasWidth ∧ 0 ≤ y ∧ y < P0.CanvasHeight
        · rw [if_pos hb]
          cases hlk : storeLookup store k with
          | none => exact hg
          | some px =>
              apply goodGrid_setCell _ hg
              have := hb.2.2.2
              simp only [P0.CanvasHeight] at this
              omega
        · rw [if_neg hb]
          exact hg
  · rw [if_neg hlen]
    exact hg

theorem foldCell (room : List Char) (hroom : RoomOk room)
    (store : List (List Char × P0.Pixel)) (x y : Nat) (hx : x < 90) (hy : y < 90) :
    ∀ ks : List (List Char),
      (∀ k ∈ ks, CanonicalKey k ∧ (P0.roomPfx room).isPrefixOf k = true) →
      ks.Nodup →
      ∀ g : List (List String), GoodGrid g →
      P0.cellAt (ks.foldl (fun g k => P0.applyKey store room g k) g) x y =
        (if P0.pixelKeyN room x y ∈ ks then
          (match storeLookup store (P0.pixelKeyN room x y) with
           | some px => some px.color
           | none => P0.cellAt g x y)
         else P0.cellAt g x y) := by
  intro ks
  induction ks with
  | nil =>
      intro _ _ g hg
      simp
  | cons k rest ih =>
      intro hcanon hnd g hg
      obtain ⟨hkc, hkp⟩ := hcanon k (List.mem_cons_self k rest)
      obtain ⟨r, a, b, hrok, ha, hb, hkeq⟩ := hkc
      subst hkeq
      have hreq : r = room :=
        prefix_forces_room room r a b hroom hrok hkp
      subst hreq
      rw [List.foldl_cons, applyKey_canon store r g a b ha hb]
      have hrest : ∀ k' ∈ rest,
          CanonicalKey k' ∧ (P0.roomPfx r).isPrefixOf k' = true :=
        fun k' h => hcanon k' (List.mem_cons_of_mem _ h)
      have hndr : rest.Nodup := (List.nodup_cons.1 hnd).2
      have hknotin : P0.pixelKeyN r a b ∉ rest := (List.nodup_cons.1 hnd).1
      by_cases hsame : a = x ∧ b = y
      · obtain ⟨h1, h2⟩ := hsame
        subst h1
        subst h2
        rw [if_pos (List.mem_cons_self _ _)]
        cases hlk : storeLookup store (P0.pixelKeyN r a b) with
        | some px =>
            rw [ih hrest hndr _ (goodGrid_setCell g hg a b (by omega) px.color)]
            rw [if_neg hknotin]
            exact cellAt_setCell_self g hg a b ha hb px.color
        | none =>
            rw [ih hrest hndr g hg, if_neg hknotin]
      · have hne : (x, y) ≠ (a, b) := by
          intro h
          rw [Prod.ext_iff] at h
          exact hsame ⟨h.1.symm, h.2.symm⟩
        have hkne : P0.pixelKeyN r x y ∈ P0.pixelKeyN r a b :: rest ↔
            P0.pixelKeyN r x y ∈ rest := by
          constructor
          · intro h
            rcases List.mem_cons.1 h with h | h
            · obtain ⟨h1, h2⟩ := pixelKeyN_cell_inj r a b x y ha hb hx hy h
              exact absurd ⟨h1.symm, h2.symm⟩ hsame
            · exact h
          · exact List.mem_cons_of_mem _
        cases hlk : storeLookup store (P0.pixelKeyN r a b) with
        | some px =>
            rw [ih hrest hndr _ (goodGrid_setCell g hg a b (by omega) px.color)]
            have hcell := cellAt_setCell_other g a b x y px.color hne
            by_cases hmem : P0.pixelKeyN r x y ∈ rest
            · rw [if_pos hmem, if_pos (List.mem_cons_of_mem _ hmem)]
              cases hlk0 : storeLookup store (P0.pixelKeyN r x y) with
              | some px0 => rfl
              | none => exact hcell
            · rw [if_neg hmem, if_neg (fun h => hmem (hkne.1 h))]
              exact hcell
        | none =>
            rw [ih hrest hndr g hg]
            by_cases hmem : P0.pixelKeyN r x y ∈ rest
            · rw [if_pos hmem, if_pos (List.mem_cons_of_mem _ hmem)]
            · rw [if_neg hmem, if_neg (fun h => hmem (hkne.1 h))]

theorem storeLookup_isSome_iff_mem {κ α : Type} [DecidableEq κ]
    (store : List (κ × α)) (k : κ) :
    (storeLookup store k).isSome ↔ k ∈ store.map Prod.fst := by
  induction store with
  | nil => simp [storeLookup]
  | cons kv rest ih =>
      by_cases h : kv.1 = k
      · simp [storeLookup, h]
      · simp only [storeLookup, h, if_false, List.map_cons, List.mem_cons]
        rw [ih]
        constructor
        · intro hmem
          exact Or.inr hmem
        · intro hmem
          rcases hmem with heq | hmem
          · exact absurd heq.symm h
          · exact hmem

theorem getCanvas_cell (room : List Char) (hroom : RoomOk room)
    (store : List (List Char × P0.Pixel)) (hwf : WFCanvasStore store)
    (x y : Nat) (hx : x < 90) (hy : y < 90) :
    P0.cellAt (P0.getCanvasGrid room store) x y =
      (match storeLookup store (P0.pixelKeyN room x y) with
       | some px => some px.color
       | none => some "#ffffff") := by
  simp only [P0.getCanvasGrid]
  have hcanon : ∀ k ∈ (store.map Prod.fst).filter
      (fun k => (P0.roomPfx room).isPrefixOf k),
      CanonicalKey k ∧ (P0.roomPfx room).isPrefixOf k = true := by
    intro k hk
    rw [List.mem_filter] at hk
    obtain ⟨hmem, hpred⟩ := hk
    obtain ⟨kv, hkv, hfst⟩ := List.mem_map.1 hmem
    exact ⟨hfst ▸ hwf.2 kv hkv, hpred⟩
  have hnd : ((store.map Prod.fst).filter
      (fun k => (P0.roomPfx room).isPrefixOf k)).Nodup :=
    List.Nodup.filter _ hwf.1
  rw [foldCell room hroom store x y hx hy _ hcanon hnd P0.emptyGrid
    goodGrid_emptyGrid]
  have hempty : P0.cellAt P0.emptyGrid x y = some "#ffffff" := by
    unfold P0.cellAt P0.emptyGrid
    rw [List.getElem?_replicate, if_pos hy]
    show (List.replicate 90 "#ffffff")[x]? = _
    rw [List.getElem?_replicate, if_pos hx]
  cases hlk : storeLookup store (P0.pixelKeyN room x y) with
  | some px =>
      have hmem : P0.pixelKeyN room x y ∈ (store.map Prod.fst).filter
          (fun k => (P0.roomPfx room).isPrefixOf k) := by
        rw [List.mem_filter]
        refine ⟨?_, pfx_isPrefixOf_pixelKeyN room x y⟩
        rw [← storeLookup_isSome_iff_mem, hlk]
        rfl
      rw [if_pos hmem]
  | none =>
      have hmem : P0.pixelKeyN room x y ∉ (store.map Prod.fst).filter
          (fun k => (P0.roomPfx room).isPrefixOf k) := by
        rw [List.mem_filter]
        intro hk
        obtain ⟨hmem, _⟩ := hk
        rw [← storeLookup_isSome_iff_mem, hlk] at hmem
        cases hmem
      rw [if_neg hmem, hempty]

theorem onPixelUpdate_single_store (b : P0.PixelBatch) (s : P0.ServerState)
    (p : P0.Pixel) (hb : b.pixels = [p]) (hroom : b.room ≠ [])
    (hfresh : storeLookup s.processedBatchIds b.batchId = none)
    (hin : 0 ≤ p.x ∧ p.x < P0.CanvasWidth ∧ 0 ≤ p.y ∧ p.y < P0.CanvasHeight) :
    (P0.onPixelUpdate false noPutErr b s).canvasStore =
      storePut s.canvasStore (P0.pixelKey b.room p.x p.y) p := by
  rw [onPixelUpdate_eq]
  have h1 := isBatchProcessed_fresh_fst b.batchId b.timestamp
    s.processedBatchIds hfresh
  rw [if_neg (by rw [h1]; simp), if_neg (by simp), if_neg hroom]
  show P0.writePixels noPutErr b.room b.pixels s.canvasStore = _
  rw [hb]
  simp [P0.writePixels, hin, noPutErr]

theorem storePut_map_fst {κ α : Type} [DecidableEq κ]
    (store : List (κ × α)) (k : κ) (v : α) :
    (storePut store k v).map Prod.fst =
      if (storeLookup store k).isSome then store.map Prod.fst
      else store.map Prod.fst ++ [k] := by
  unfold storePut
  by_cases h : (storeLookup store k).isSome
  · rw [if_pos h, if_pos h, List.map_map]
    apply List.map_congr_left
    intro kv _
    by_cases hkv : kv.1 = k
    · simp [hkv]
    · simp [hkv]
  · rw [if_neg h, if_neg h, List.map_append]
    rfl

theorem wf_storePut (store : List (List Char × P0.Pixel))
    (hwf : WFCanvasStore store) (k : List Char) (hk : CanonicalKey k)
    (v : P0.Pixel) : WFCanvasStore (storePut store k v) := by
  constructor
  · rw [storePut_map_fst]
    by_cases h : (storeLookup store k).isSome
    · rw [if_pos h]
      exact hwf.1
    · rw [if_neg h]
      rw [List.nodup_append]
      refine ⟨hwf.1, List.nodup_singleton _, ?_⟩
      intro a hamem hb
      rw [List.mem_singleton] at hb
      subst hb
      exact h ((storeLookup_isSome_iff_mem store a).2 hamem)
  · intro kv hkv
    unfold storePut at hkv
    by_cases h : (storeLookup store k).isSome
    · rw [if_pos h] at hkv
      obtain ⟨kv', hkv', hmap⟩ := List.mem_map.1 hkv
      by_cases hkk : kv'.1 = k
      · rw [← hmap, if_pos hkk]
        exact hk
      · rw [← hmap, if_neg hkk]
        exact hwf.2 kv' hkv'
    · rw [if_neg h] at hkv
      rcases List.mem_append.1 hkv with hmem | hmem
      · exact hwf.2 kv hmem
      · rw [List.mem_singleton] at hmem
        rw [hmem]
        exact hk

/-- C1 (amended): for a room with a non-empty, separator-free identifier, a
canvas namespace containing only canonical pixel keys of such rooms, and a
fresh batch token, writing a single in-bounds pixel with a well-formed hex
color and then projecting the canvas shows exactly that color at `(y, x)`,
and every other in-bounds cell reads exactly as before the write.  (For
rooms containing `'/'` the claim fails — see the counterexample.) -/
theorem c1_write_then_read (b : P0.PixelBatch) (s : P0.ServerState)
    (p : P0.Pixel) (hb : b.pixels = [p]) (hroomok : RoomOk b.room)
    (hfresh : storeLookup s.processedBatchIds b.batchId = none)
    (hwf : WFCanvasStore s.canvasStore)
    (hin : 0 ≤ p.x ∧ p.x < P0.CanvasWidth ∧ 0 ≤ p.y ∧ p.y < P0.CanvasHeight)
    (hcol : B3.isValidColor p.color.toList = true) :
    P0.cellAt (P0.getCanvasGrid b.room
        (P0.onPixelUpdate false noPutErr b s).canvasStore)
      p.x.toNat p.y.toNat = some p.color ∧
    ∀ x' y' : Nat, x' < 90 → y' < 90 → (x', y') ≠ (p.x.toNat, p.y.toNat) →
      P0.cellAt (P0.getCanvasGrid b.room
          (P0.onPixelUpdate false noPutErr b s).canvasStore) x' y' =
        P0.cellAt (P0.getCanvasGrid b.room s.canvasStore) x' y' := by
  have hxb : p.x.toNat < 90 := by
    have := hin.2.1
    simp only [P0.CanvasWidth] at this
    omega
  have hyb : p.y.toNat < 90 := by
    have := hin.2.2.2
    simp only [P0.CanvasHeight] at this
    omega
  have hkey : P0.pixelKey b.room p.x p.y =
      P0.pixelKeyN b.room p.x.toNat p.y.toNat := by
    unfold P0.pixelKey P0.pixelKeyN intRepr
    rw [if_neg (by omega), if_neg (by omega)]
  have hstore := onPixelUpdate_single_store b s p hb hroomok.1 hfresh hin
  rw [hkey] at hstore
  have hcanonk : CanonicalKey (P0.pixelKeyN b.room p.x.toNat p.y.toNat) :=
    ⟨b.room, p.x.toNat, p.y.toNat, hroomok, hxb, hyb, rfl⟩
  have hwf2 : WFCanvasStore (P0.onPixelUpdate false noPutErr b s).canvasStore := by
    rw [hstore]
    exact wf_storePut s.canvasStore hwf _ hcanonk p
  constructor
  · rw [getCanvas_cell b.room hroomok _ hwf2 p.x.toNat p.y.toNat hxb hyb]
    rw [hstore, storeLookup_storePut_self]
  · intro x' y' hx' hy' hne
    rw [getCanvas_cell b.room hroomok _ hwf2 x' y' hx' hy',
      getCanvas_cell b.room hroomok s.canvasStore hwf x' y' hx' hy']
    have hkne : P0.pixelKeyN b.room x' y' ≠
        P0.pixelKeyN b.room p.x.toNat p.y.toNat := by
      intro h
      obtain ⟨h1, h2⟩ := pixelKeyN_cell_inj b.room p.x.toNat p.y.toNat x' y'
        hxb hyb hx' hy' h
      exact hne (by rw [h1, h2])
    rw [hstore, storeLookup_storePut_other _ _ _ _ hkne]

/-- Witness for C1 at the spec's own scenario: room `"r1"`, pixel
`(5, 5, "#ff0000")` on an empty store. -/
theorem c1_write_then_read_witness :
    P0.cellAt (P0.getCanvasGrid "r1".toList
        (P0.onPixelUpdate false noPutErr
          (P0.PixelBatch.mk [P0.Pixel.mk 5 5 "#ff0000" "u1" "n1"]
            "r1".toList 1 "wb1" "") emptyState).canvasStore) 5 5 =
      some "#ff0000" ∧
    P0.cellAt (P0.getCanvasGrid "r1".toList
        (P0.onPixelUpdate false noPutErr
          (P0.PixelBatch.mk [P0.Pixel.mk 5 5 "#ff0000" "u1" "n1"]
            "r1".toList 1 "wb1" "") emptyState).canvasStore) 7 8 =
      P0.cellAt (P0.getCanvasGrid "r1".toList emptyState.canvasStore) 7 8 :=
  ⟨(c1_write_then_read
      (P0.PixelBatch.mk [P0.Pixel.mk 5 5 "#ff0000" "u1" "n1"] "r1".toList 1 "wb1" "")
      emptyState (P0.Pixel.mk 5 5 "#ff0000" "u1" "n1") rfl ⟨by decide, by decide⟩ rfl
      ⟨List.nodup_nil, fun kv hkv => absurd hkv (List.not_mem_nil kv)⟩
      (by decide) (by decide)).1,
   (c1_write_then_read
      (P0.PixelBatch.mk [P0.Pixel.mk 5 5 "#ff0000" "u1" "n1"] "r1".toList 1 "wb1" "")
      emptyState (P0.Pixel.mk 5 5 "#ff0000" "u1" "n1") rfl ⟨by decide, by decide⟩ rfl
      ⟨List.nodup_nil, fun kv hkv => absurd hkv (List.not_mem_nil kv)⟩
      (by decide) (by decide)).2 7 8 (by decide)
      (by decide) (by decide)⟩

/-- Counterexample for C1 as stated (over EVERY room): the room identifier
`"a/0:0q"` contains a path separator, and its pixel key `/a/0:0q/0:0` also
parses as cell (0,0) of room `"a"`.  After writing `#333333` at (0,0) in
room `"a"`, reading room `"a"` shows `#222222` — the color written earlier
by the OTHER room — at (0,0), even though the write itself was persisted. -/
theorem c1_room_aliasing_counterexample :
    storeLookup aliasState3.canvasStore (P0.pixelKey "a".toList 0 0) =
      some (P0.Pixel.mk 0 0 "#333333" "u" "n") ∧
    P0.cellAt (P0.getCanvasGrid "a".toList aliasState3.canvasStore) 0 0 =
      some "#222222" ∧
    "#222222" ≠ "#333333" := by
  refine ⟨?_, ?_, ?_⟩ <;> decide

end PixelCollab
